import Mathlib

/-!
Shallow embedding of the locally authored logic of the `langchain-kr` gradio
demos (`09-VectorStore/gradio_text_Embeddings_VectorStore.py` and
`07-TextSplitter/gradio_text_splitter_v3.py`), together with proofs about the
cache-key derivation, the vector-store create/load routing, the two similarity
search modes, the text-preprocessing transform, and the session export.

Python strings are modelled as `List Char` (code points) or Lean `String`
(whose `data` is the code-point list); machine integers do not occur in the
relevant code paths (slider values are small non-negative integers, modelled
as `Nat`).  External library calls (hash digest, embedding backends, the
Chroma index) are modelled as explicit function parameters or, where their
observable behaviour matters, by definitions documented at the point of use.
-/

set_option maxRecDepth 2000

namespace LangchainKR

/-! ### Decimal rendering of integers

`json.dumps` renders a Python `int` as its decimal digits; this is the
rendering used for the `size` and `overlap` fields of the cache-key
configuration. -/

/-- The decimal digit character for `n < 10`. -/
def digitChar (n : Nat) : Char := Char.ofNat (48 + n)

/-- Decimal digits of a positive number (empty for `0`), most significant first. -/
def natCharsAux : Nat → List Char
  | 0 => []
  | n + 1 => natCharsAux ((n + 1) / 10) ++ [digitChar ((n + 1) % 10)]
decreasing_by exact Nat.div_lt_self n.succ_pos (by decide)

/-- Fuel-driven version of `natCharsAux` (structurally recursive, so that the
kernel can evaluate it on concrete inputs). -/
def natCharsCore : Nat → Nat → List Char
  | 0, _ => []
  | fuel + 1, n => if n = 0 then [] else natCharsCore fuel (n / 10) ++ [digitChar (n % 10)]

theorem natCharsCore_eq : ∀ (fuel n : Nat), n ≤ fuel → natCharsCore fuel n = natCharsAux n := by
  intro fuel
  induction fuel with
  | zero =>
    intro n h
    rw [Nat.le_zero.mp h, natCharsCore, natCharsAux]
  | succ f ih =>
    intro n h
    rw [natCharsCore]
    split
    · rename_i h0
      rw [h0, natCharsAux]
    · rename_i h0
      match n, h0 with
      | m + 1, _ =>
        rw [ih ((m + 1) / 10) (by omega), natCharsAux]

/-- Decimal rendering of a natural number, as `repr(int)` / `json.dumps` do. -/
def natChars (n : Nat) : List Char := if n = 0 then ['0'] else natCharsCore n n

theorem natChars_eq (n : Nat) : natChars n = if n = 0 then ['0'] else natCharsAux n := by
  unfold natChars
  split
  · rfl
  · exact natCharsCore_eq n n (Nat.le_refl n)

/-- A decimal digit character. -/
def isDigitCh (c : Char) : Prop := 48 ≤ c.toNat ∧ c.toNat ≤ 57

instance (c : Char) : Decidable (isDigitCh c) := by unfold isDigitCh; infer_instance

theorem digitChar_isDigit {n : Nat} (h : n < 10) : isDigitCh (digitChar n) := by
  interval_cases n <;> decide

theorem natCharsAux_digits (n : Nat) : ∀ c ∈ natCharsAux n, isDigitCh c := by
  induction n using Nat.strong_induction_on with
  | _ n ih =>
    match n with
    | 0 => intro c hc; simp [natCharsAux] at hc
    | m + 1 =>
      intro c hc
      rw [natCharsAux] at hc
      rcases List.mem_append.mp hc with h | h
      · exact ih ((m + 1) / 10) (Nat.div_lt_self m.succ_pos (by decide)) c h
      · rcases List.mem_singleton.mp h with rfl
        exact digitChar_isDigit (Nat.mod_lt _ (by decide))

theorem natChars_digits (n : Nat) : ∀ c ∈ natChars n, isDigitCh c := by
  intro c hc
  rw [natChars_eq] at hc
  split at hc
  · rcases List.mem_singleton.mp hc with rfl; decide
  · exact natCharsAux_digits n c hc

theorem natCharsAux_ne_nil {n : Nat} (h : n ≠ 0) : natCharsAux n ≠ [] := by
  match n with
  | 0 => exact absurd rfl h
  | m + 1 => rw [natCharsAux]; simp

theorem digitChar_inj {m n : Nat} (hm : m < 10) (hn : n < 10)
    (h : digitChar m = digitChar n) : m = n := by
  interval_cases m <;> interval_cases n <;> first | rfl | exact absurd h (by decide)

theorem natCharsAux_inj : ∀ m n : Nat, natCharsAux m = natCharsAux n → m = n := by
  intro m
  induction m using Nat.strong_induction_on with
  | _ m ih =>
    intro n h
    match m, n with
    | 0, 0 => rfl
    | 0, k + 1 =>
      rw [natCharsAux] at h
      exact absurd h.symm (by simp [natCharsAux])
    | k + 1, 0 =>
      rw [natCharsAux] at h
      exact absurd h (by simp [natCharsAux])
    | k + 1, j + 1 =>
      rw [natCharsAux, natCharsAux] at h
      have h' := congrArg List.reverse h
      simp only [List.reverse_append, List.reverse_singleton, List.singleton_append,
        List.cons.injEq] at h'
      have hd : (k + 1) % 10 = (j + 1) % 10 :=
        digitChar_inj (Nat.mod_lt _ (by decide)) (Nat.mod_lt _ (by decide)) h'.1
      have ht : natCharsAux ((k + 1) / 10) = natCharsAux ((j + 1) / 10) := by
        have := congrArg List.reverse h'.2
        simpa using this
      have hq : (k + 1) / 10 = (j + 1) / 10 :=
        ih ((k + 1) / 10) (Nat.div_lt_self k.succ_pos (by decide)) _ ht
      omega

theorem natChars_inj {m n : Nat} (h : natChars m = natChars n) : m = n := by
  rw [natChars_eq, natChars_eq] at h
  split at h <;> split at h
  · omega
  · rename_i hm hn
    exfalso
    match hn' : n, h with
    | j + 1, h =>
      rw [natCharsAux] at h
      have h' := congrArg List.reverse h
      simp only [List.reverse_append, List.reverse_singleton, List.singleton_append,
        List.reverse_cons, List.reverse_nil, List.nil_append, List.cons.injEq] at h'
      have : (j + 1) % 10 = 0 := by
        have := h'.1
        have h10 : (j + 1) % 10 < 10 := Nat.mod_lt _ (by decide)
        interval_cases h99 : (j + 1) % 10 <;> first | rfl | exact absurd this (by decide)
      have : natCharsAux ((j + 1) / 10) = [] := by
        have := h'.2
        simpa using congrArg List.reverse this
      have hq : (j + 1) / 10 = 0 := by
        by_contra hq
        exact natCharsAux_ne_nil hq this
      omega
  · rename_i hm hn
    exfalso
    match hm' : m, h with
    | j + 1, h =>
      rw [natCharsAux] at h
      have h' := congrArg List.reverse h
      simp only [List.reverse_append, List.reverse_singleton, List.singleton_append,
        List.reverse_cons, List.reverse_nil, List.nil_append, List.cons.injEq] at h'
      have : (j + 1) % 10 = 0 := by
        have := h'.1
        have h10 : (j + 1) % 10 < 10 := Nat.mod_lt _ (by decide)
        interval_cases h99 : (j + 1) % 10 <;> first | rfl | exact absurd this (by decide)
      have : natCharsAux ((j + 1) / 10) = [] := by
        have := h'.2
        simpa using congrArg List.reverse this
      have hq : (j + 1) / 10 = 0 := by
        by_contra hq
        exact natCharsAux_ne_nil hq this
      omega
  · exact natCharsAux_inj m n h

/-- Splitting a concatenation at the first non-digit character: if two strings
agree, both start with a digit block followed by a non-digit, then the digit
blocks and the remainders agree. -/
theorem digits_split : ∀ (xs ys : List Char) (c1 c2 : Char) (t1 t2 : List Char),
    (∀ c ∈ xs, isDigitCh c) → (∀ c ∈ ys, isDigitCh c) →
    ¬isDigitCh c1 → ¬isDigitCh c2 →
    xs ++ c1 :: t1 = ys ++ c2 :: t2 → xs = ys ∧ c1 = c2 ∧ t1 = t2 := by
  intro xs
  induction xs with
  | nil =>
    intro ys c1 c2 t1 t2 _ hys hc1 _ h
    match ys with
    | [] => simpa using h
    | y :: ys' =>
      simp only [List.nil_append, List.cons_append, List.cons.injEq] at h
      exact absurd (h.1 ▸ hys y (by simp)) hc1
  | cons x xs' ih =>
    intro ys c1 c2 t1 t2 hxs hys hc1 hc2 h
    match ys with
    | [] =>
      simp only [List.nil_append, List.cons_append, List.cons.injEq] at h
      exact absurd (h.1 ▸ hxs x (by simp)) hc2
    | y :: ys' =>
      simp only [List.cons_append, List.cons.injEq] at h
      obtain ⟨rfl, h2⟩ := h
      obtain ⟨h3, h4, h5⟩ := ih ys' c1 c2 t1 t2 (fun c hc => hxs c (by simp [hc]))
        (fun c hc => hys c (by simp [hc])) hc1 hc2 h2
      exact ⟨by rw [h3], h4, h5⟩

theorem natChars_split {m n : Nat} {c1 c2 : Char} {t1 t2 : List Char}
    (hc1 : ¬isDigitCh c1) (hc2 : ¬isDigitCh c2)
    (h : natChars m ++ c1 :: t1 = natChars n ++ c2 :: t2) :
    m = n ∧ c1 = c2 ∧ t1 = t2 := by
  obtain ⟨h1, h2, h3⟩ := digits_split _ _ _ _ _ _ (natChars_digits m) (natChars_digits n)
    hc1 hc2 h
  exact ⟨natChars_inj h1, h2, h3⟩

/-! ### JSON string escaping

`json.dumps` is called with its defaults, so `ensure_ascii=True`: every
character outside printable ASCII is written as a `\uXXXX` escape (with a
surrogate pair for code points above `0xFFFF`), and the characters with
dedicated short escapes use those.  This models CPython's
`json.encoder.py_encode_basestring_ascii`. -/

/-- Lowercase hexadecimal digit for `n < 16` (CPython formats `\uXXXX` escapes
with `%04x`, which is lowercase). -/
def hexDigitChar (n : Nat) : Char :=
  if n < 10 then Char.ofNat (48 + n) else Char.ofNat (87 + n)

/-- Four lowercase hex digits of `n < 0x10000`, most significant first. -/
def hex4 (n : Nat) : List Char :=
  [hexDigitChar (n / 4096 % 16), hexDigitChar (n / 256 % 16),
   hexDigitChar (n / 16 % 16), hexDigitChar (n % 16)]

/-- Value of a lowercase hex digit character. -/
def hexVal (c : Char) : Nat := if 97 ≤ c.toNat then c.toNat - 87 else c.toNat - 48

/-- Value of four hex digit characters. -/
def hex4Val (a b c d : Char) : Nat :=
  hexVal a * 4096 + hexVal b * 256 + hexVal c * 16 + hexVal d

theorem hexVal_hexDigitChar : ∀ k < 16, hexVal (hexDigitChar k) = k := by decide

theorem hex4Val_hex4 {n : Nat} (h : n < 65536) :
    hex4Val (hexDigitChar (n / 4096 % 16)) (hexDigitChar (n / 256 % 16))
      (hexDigitChar (n / 16 % 16)) (hexDigitChar (n % 16)) = n := by
  rw [hex4Val, hexVal_hexDigitChar _ (Nat.mod_lt _ (by decide)),
    hexVal_hexDigitChar _ (Nat.mod_lt _ (by decide)),
    hexVal_hexDigitChar _ (Nat.mod_lt _ (by decide)),
    hexVal_hexDigitChar _ (Nat.mod_lt _ (by decide))]
  omega

/-- Escape of a single character, following CPython's
`py_encode_basestring_ascii` (the encoder used by `json.dumps` with
`ensure_ascii=True`): `"` and `\` and the five C short escapes are written in
two characters, every other character outside `0x20 ≤ c ≤ 0x7E` is written as
`\uXXXX` (a surrogate pair above `0xFFFF`), printable ASCII stands for itself. -/
def jEscapeChar (c : Char) : List Char :=
  if c = '"' then ['\\', '"']
  else if c = '\\' then ['\\', '\\']
  else if c = Char.ofNat 8 then ['\\', 'b']
  else if c = Char.ofNat 12 then ['\\', 'f']
  else if c = '\n' then ['\\', 'n']
  else if c = '\r' then ['\\', 'r']
  else if c = '\t' then ['\\', 't']
  else if c.toNat < 32 then '\\' :: 'u' :: hex4 c.toNat
  else if c.toNat ≤ 126 then [c]
  else if c.toNat < 65536 then '\\' :: 'u' :: hex4 c.toNat
  else '\\' :: 'u' :: hex4 (55296 + (c.toNat - 65536) / 1024) ++
       '\\' :: 'u' :: hex4 (56320 + (c.toNat - 65536) % 1024)

/-- Escape of a whole string body (the part of a JSON string literal between
the two quote characters). -/
def jEscape (s : List Char) : List Char := (s.map jEscapeChar).flatten

/-- A JSON string literal: quote, escaped body, quote. -/
def jstr (s : List Char) : List Char := '"' :: jEscape s ++ ['"']

/-- Decoder for JSON string bodies: reads characters up to the first unescaped
quote, returning the decoded body and the remainder after that quote.  This is
only a proof device used to show that `jEscape` is uniquely decodable; the
Python program never parses its own serializations. -/
def unescape : List Char → Option (List Char × List Char)
  | [] => none
  | c :: r =>
    if c = '"' then some ([], r)
    else if c = '\\' then
      match r with
      | [] => none
      | e :: r2 =>
        if e = '"' then (unescape r2).map (fun p => ('"' :: p.1, p.2))
        else if e = '\\' then (unescape r2).map (fun p => ('\\' :: p.1, p.2))
        else if e = 'b' then (unescape r2).map (fun p => (Char.ofNat 8 :: p.1, p.2))
        else if e = 'f' then (unescape r2).map (fun p => (Char.ofNat 12 :: p.1, p.2))
        else if e = 'n' then (unescape r2).map (fun p => ('\n' :: p.1, p.2))
        else if e = 'r' then (unescape r2).map (fun p => ('\r' :: p.1, p.2))
        else if e = 't' then (unescape r2).map (fun p => ('\t' :: p.1, p.2))
        else if e = 'u' then
          match r2 with
          | a :: b :: c2 :: d :: r3 =>
            if 55296 ≤ hex4Val a b c2 d ∧ hex4Val a b c2 d ≤ 56319 then
              match r3 with
              | e2 :: u2 :: a2 :: b2 :: c3 :: d2 :: r4 =>
                if e2 = '\\' ∧ u2 = 'u' ∧ 56320 ≤ hex4Val a2 b2 c3 d2 ∧
                    hex4Val a2 b2 c3 d2 ≤ 57343 then
                  (unescape r4).map (fun p =>
                    (Char.ofNat (65536 + (hex4Val a b c2 d - 55296) * 1024 +
                      (hex4Val a2 b2 c3 d2 - 56320)) :: p.1, p.2))
                else none
              | _ => none
            else (unescape r3).map (fun p => (Char.ofNat (hex4Val a b c2 d) :: p.1, p.2))
          | _ => none
        else none
    else (unescape r).map (fun p => (c :: p.1, p.2))
termination_by l => l.length
decreasing_by all_goals simp_arith [List.length]

/-- Valid scalar values avoid the surrogate range: the fact from `Char.valid`
in the form used below. -/
theorem char_toNat_valid (c : Char) :
    c.toNat < 55296 ∨ (57343 < c.toNat ∧ c.toNat < 1114112) := c.valid

theorem unescape_cons_plain {c : Char} (h1 : c ≠ '"') (h2 : c ≠ '\\') (l : List Char) :
    unescape (c :: l) = (unescape l).map (fun p => (c :: p.1, p.2)) := by
  conv_lhs => rw [unescape.eq_def]
  simp only [if_neg h1, if_neg h2]

/-- Round trip: decoding an escaped body followed by a closing quote recovers
the body and the remainder.  This makes `jEscape`, hence the whole JSON
serialization, uniquely decodable. -/
theorem unescape_jEscape (s : List Char) (r : List Char) :
    unescape (jEscape s ++ '"' :: r) = some (s, r) := by
  induction s with
  | nil =>
    rw [show jEscape [] = [] from rfl, List.nil_append]
    conv_lhs => rw [unescape.eq_def]
    simp only [reduceIte]
  | cons c cs ih =>
    have hstep : jEscape (c :: cs) = jEscapeChar c ++ jEscape cs := by
      rw [jEscape, jEscape, List.map_cons, List.flatten_cons]
    rw [hstep, List.append_assoc]
    by_cases h1 : c = '"'
    · subst h1
      rw [show jEscapeChar '"' = ['\\', '"'] by decide]
      simp only [List.cons_append, List.nil_append]
      conv_lhs => rw [unescape.eq_def]
      simp only [reduceIte]
      rw [if_neg (show ¬('\\' : Char) = '"' by decide), ih]
      rfl
    by_cases h2 : c = '\\'
    · subst h2
      rw [show jEscapeChar '\\' = ['\\', '\\'] by decide]
      simp only [List.cons_append, List.nil_append]
      conv_lhs => rw [unescape.eq_def]
      simp only [reduceIte]
      rw [if_neg (show ¬('\\' : Char) = '"' by decide),
        if_neg (show ¬('\\' : Char) = '"' by decide), ih]
      rfl
    by_cases h3 : c = Char.ofNat 8
    · subst h3
      rw [show jEscapeChar (Char.ofNat 8) = ['\\', 'b'] by decide]
      simp only [List.cons_append, List.nil_append]
      conv_lhs => rw [unescape.eq_def]
      simp only [reduceIte]
      rw [if_neg (show ¬('\\' : Char) = '"' by decide),
        if_neg (show ¬('b' : Char) = '"' by decide),
        if_neg (show ¬('b' : Char) = '\\' by decide), ih]
      rfl
    by_cases h4 : c = Char.ofNat 12
    · subst h4
      rw [show jEscapeChar (Char.ofNat 12) = ['\\', 'f'] by decide]
      simp only [List.cons_append, List.nil_append]
      conv_lhs => rw [unescape.eq_def]
      simp only [reduceIte]
      rw [if_neg (show ¬('\\' : Char) = '"' by decide),
        if_neg (show ¬('f' : Char) = '"' by decide),
        if_neg (show ¬('f' : Char) = '\\' by decide),
        if_neg (show ¬('f' : Char) = 'b' by decide), ih]
      rfl
    by_cases h5 : c = '\n'
    · subst h5
      rw [show jEscapeChar '\n' = ['\\', 'n'] by decide]
      simp only [List.cons_append, List.nil_append]
      conv_lhs => rw [unescape.eq_def]
      simp only [reduceIte]
      rw [if_neg (show ¬('\\' : Char) = '"' by decide),
        if_neg (show ¬('n' : Char) = '"' by decide),
        if_neg (show ¬('n' : Char) = '\\' by decide),
        if_neg (show ¬('n' : Char) = 'b' by decide),
        if_neg (show ¬('n' : Char) = 'f' by decide), ih]
      rfl
    by_cases h6 : c = '\r'
    · subst h6
      rw [show jEscapeChar '\r' = ['\\', 'r'] by decide]
      simp only [List.cons_append, List.nil_append]
      conv_lhs => rw [unescape.eq_def]
      simp only [reduceIte]
      rw [if_neg (show ¬('\\' : Char) = '"' by decide),
        if_neg (show ¬('r' : Char) = '"' by decide),
        if_neg (show ¬('r' : Char) = '\\' by decide),
        if_neg (show ¬('r' : Char) = 'b' by decide),
        if_neg (show ¬('r' : Char) = 'f' by decide),
        if_neg (show ¬('r' : Char) = 'n' by decide), ih]
      rfl
    by_cases h7 : c = '\t'
    · subst h7
      rw [show jEscapeChar '\t' = ['\\', 't'] by decide]
      simp only [List.cons_append, List.nil_append]
      conv_lhs => rw [unescape.eq_def]
      simp only [reduceIte]
      rw [if_neg (show ¬('\\' : Char) = '"' by decide),
        if_neg (show ¬('t' : Char) = '"' by decide),
        if_neg (show ¬('t' : Char) = '\\' by decide),
        if_neg (show ¬('t' : Char) = 'b' by decide),
        if_neg (show ¬('t' : Char) = 'f' by decide),
        if_neg (show ¬('t' : Char) = 'n' by decide),
        if_neg (show ¬('t' : Char) = 'r' by decide), ih]
      rfl
    by_cases h8 : c.toNat < 32
    · have henc : jEscapeChar c = '\\' :: 'u' :: hex4 c.toNat := by
        rw [jEscapeChar]
        simp [h1, h2, h3, h4, h5, h6, h7, h8]
      rw [henc, hex4]
      have hv := hex4Val_hex4 (show c.toNat < 65536 by omega)
      simp only [List.cons_append, List.nil_append]
      conv_lhs => rw [unescape.eq_def]
      simp only [reduceIte]
      rw [if_neg (show ¬('\\' : Char) = '"' by decide),
        if_neg (show ¬('u' : Char) = '"' by decide),
        if_neg (show ¬('u' : Char) = '\\' by decide),
        if_neg (show ¬('u' : Char) = 'b' by decide),
        if_neg (show ¬('u' : Char) = 'f' by decide),
        if_neg (show ¬('u' : Char) = 'n' by decide),
        if_neg (show ¬('u' : Char) = 'r' by decide),
        if_neg (show ¬('u' : Char) = 't' by decide)]
      rw [hv, if_neg (by omega), ih, Char.ofNat_toNat]
      rfl
    by_cases h9 : c.toNat ≤ 126
    · have henc : jEscapeChar c = [c] := by
        rw [jEscapeChar]
        simp [h1, h2, h3, h4, h5, h6, h7, h8, h9]
      rw [henc]
      simp only [List.cons_append, List.nil_append]
      rw [unescape_cons_plain h1 h2, ih]
      rfl
    by_cases h10 : c.toNat < 65536
    · have henc : jEscapeChar c = '\\' :: 'u' :: hex4 c.toNat := by
        rw [jEscapeChar]
        simp [h1, h2, h3, h4, h5, h6, h7, h8, h9, h10]
      rw [henc, hex4]
      have hv := hex4Val_hex4 h10
      have hval := char_toNat_valid c
      simp only [List.cons_append, List.nil_append]
      conv_lhs => rw [unescape.eq_def]
      simp only [reduceIte]
      rw [if_neg (show ¬('\\' : Char) = '"' by decide),
        if_neg (show ¬('u' : Char) = '"' by decide),
        if_neg (show ¬('u' : Char) = '\\' by decide),
        if_neg (show ¬('u' : Char) = 'b' by decide),
        if_neg (show ¬('u' : Char) = 'f' by decide),
        if_neg (show ¬('u' : Char) = 'n' by decide),
        if_neg (show ¬('u' : Char) = 'r' by decide),
        if_neg (show ¬('u' : Char) = 't' by decide)]
      rw [hv, if_neg (by omega), ih, Char.ofNat_toNat]
      rfl
    · have henc : jEscapeChar c =
          '\\' :: 'u' :: hex4 (55296 + (c.toNat - 65536) / 1024) ++
          '\\' :: 'u' :: hex4 (56320 + (c.toNat - 65536) % 1024) := by
        rw [jEscapeChar]
        simp [h1, h2, h3, h4, h5, h6, h7, h8, h9, h10]
      have hval := char_toNat_valid c
      have hhiN : (c.toNat - 65536) / 1024 ≤ 1023 := by omega
      have hloN : (c.toNat - 65536) % 1024 ≤ 1023 := by
        have := Nat.mod_lt (c.toNat - 65536) (show 0 < 1024 by decide)
        omega
      have hvHi := hex4Val_hex4 (show 55296 + (c.toNat - 65536) / 1024 < 65536 by omega)
      have hvLo := hex4Val_hex4 (show 56320 + (c.toNat - 65536) % 1024 < 65536 by omega)
      rw [henc, hex4, hex4]
      simp only [List.cons_append, List.nil_append]
      conv_lhs => rw [unescape.eq_def]
      simp only [reduceIte]
      rw [if_neg (show ¬('\\' : Char) = '"' by decide),
        if_neg (show ¬('u' : Char) = '"' by decide),
        if_neg (show ¬('u' : Char) = '\\' by decide),
        if_neg (show ¬('u' : Char) = 'b' by decide),
        if_neg (show ¬('u' : Char) = 'f' by decide),
        if_neg (show ¬('u' : Char) = 'n' by decide),
        if_neg (show ¬('u' : Char) = 'r' by decide),
        if_neg (show ¬('u' : Char) = 't' by decide)]
      rw [hvHi, if_pos (by omega), hvLo]
      rw [if_pos (by exact ⟨trivial, trivial, by omega, by omega⟩)]
      rw [ih]
      have hcomb : 65536 + (55296 + (c.toNat - 65536) / 1024 - 55296) * 1024 +
          (56320 + (c.toNat - 65536) % 1024 - 56320) = c.toNat := by
        have hdm := Nat.div_add_mod (c.toNat - 65536) 1024
        omega
      rw [hcomb, Char.ofNat_toNat]
      rfl

theorem string_data_inj {a b : String} (h : a.data = b.data) : a = b := by
  cases a; cases b
  exact congrArg String.mk (by simpa using h)

/-- Splitting lemma for escaped string bodies followed by their closing quote:
the encoding is uniquely decodable. -/
theorem jEscape_split {a b r1 r2 : List Char}
    (h : jEscape a ++ '"' :: r1 = jEscape b ++ '"' :: r2) : a = b ∧ r1 = r2 := by
  have h1 := unescape_jEscape a r1
  have h2 := unescape_jEscape b r2
  rw [h, h2] at h1
  have h3 := (Option.some.inj h1).symm
  exact ⟨congrArg Prod.fst h3, congrArg Prod.snd h3⟩

theorem jstr_append (p Z : List Char) : jstr p ++ Z = '"' :: (jEscape p ++ '"' :: Z) := by
  simp [jstr]

/-- Splitting lemma for whole JSON string literals. -/
theorem jstr_split {a b : List Char} {r1 r2 : List Char}
    (h : jstr a ++ r1 = jstr b ++ r2) : a = b ∧ r1 = r2 := by
  rw [jstr_append, jstr_append] at h
  exact jEscape_split (List.cons.inj h).2

/-! ### Sorting of the preprocessing flags

`get_db_path` computes `sorted(preprocess_options)`.  Python sorts strings
lexicographically by code point; this is modelled by `strLeCh` on the
code-point lists and an insertion sort. -/

/-- Python's `<=` on strings: lexicographic comparison by code point. -/
def strLeCh : List Char → List Char → Bool
  | [], _ => true
  | _ :: _, [] => false
  | a :: as, b :: bs =>
    if a.toNat < b.toNat then true
    else if b.toNat < a.toNat then false
    else strLeCh as bs

theorem strLeCh_total : ∀ a b : List Char, strLeCh a b = true ∨ strLeCh b a = true := by
  intro a
  induction a with
  | nil => intro b; left; rfl
  | cons x xs ih =>
    intro b
    match b with
    | [] => right; rfl
    | y :: ys =>
      rw [strLeCh, strLeCh]
      rcases Nat.lt_trichotomy x.toNat y.toNat with h | h | h
      · left; simp [h]
      · have h1 : ¬x.toNat < y.toNat := by omega
        have h2 : ¬y.toNat < x.toNat := by omega
        rcases ih ys with h3 | h3
        · left; simp [h1, h2, h3]
        · right; simp [h1, h2, h3]
      · right; simp [h]

theorem char_toNat_inj {a b : Char} (h : a.toNat = b.toNat) : a = b := by
  have ha := Char.ofNat_toNat a
  rw [h, Char.ofNat_toNat] at ha
  exact ha.symm

theorem strLeCh_antisymm : ∀ a b : List Char,
    strLeCh a b = true → strLeCh b a = true → a = b := by
  intro a
  induction a with
  | nil =>
    intro b _ hba
    match b with
    | [] => rfl
    | y :: ys => exact absurd hba (by rw [strLeCh]; simp)
  | cons x xs ih =>
    intro b hab hba
    match b with
    | [] => exact absurd hab (by rw [strLeCh]; simp)
    | y :: ys =>
      rw [strLeCh] at hab hba
      rcases Nat.lt_trichotomy x.toNat y.toNat with h | h | h
      · rw [if_neg (show ¬y.toNat < x.toNat by omega), if_pos h] at hba
        exact Bool.noConfusion hba
      · have h1 : ¬x.toNat < y.toNat := by omega
        have h2 : ¬y.toNat < x.toNat := by omega
        simp only [if_neg h1, if_neg h2] at hab hba
        rw [char_toNat_inj h, ih ys hab hba]
      · rw [if_neg (show ¬x.toNat < y.toNat by omega), if_pos h] at hab
        exact Bool.noConfusion hab

theorem strLeCh_trans : ∀ a b c : List Char,
    strLeCh a b = true → strLeCh b c = true → strLeCh a c = true := by
  intro a
  induction a with
  | nil => intro b c _ _; rfl
  | cons x xs ih =>
    intro b c hab hbc
    match b, c with
    | [], _ => exact absurd hab (by rw [strLeCh]; simp)
    | _ :: _, [] => exact absurd hbc (by rw [strLeCh]; simp)
    | y :: ys, z :: zs =>
      rw [strLeCh] at hab hbc ⊢
      rcases Nat.lt_trichotomy x.toNat y.toNat with h1 | h1 | h1
      · rcases Nat.lt_trichotomy y.toNat z.toNat with h2 | h2 | h2
        · rw [if_pos (show x.toNat < z.toNat by omega)]
        · rw [if_pos (show x.toNat < z.toNat by omega)]
        · rw [if_neg (show ¬y.toNat < z.toNat by omega), if_pos h2] at hbc
          exact Bool.noConfusion hbc
      · rcases Nat.lt_trichotomy y.toNat z.toNat with h2 | h2 | h2
        · rw [if_pos (show x.toNat < z.toNat by omega)]
        · rw [if_neg (show ¬x.toNat < y.toNat by omega),
            if_neg (show ¬y.toNat < x.toNat by omega)] at hab
          rw [if_neg (show ¬y.toNat < z.toNat by omega),
            if_neg (show ¬z.toNat < y.toNat by omega)] at hbc
          rw [if_neg (show ¬x.toNat < z.toNat by omega),
            if_neg (show ¬z.toNat < x.toNat by omega)]
          exact ih ys zs hab hbc
        · rw [if_neg (show ¬y.toNat < z.toNat by omega), if_pos h2] at hbc
          exact Bool.noConfusion hbc
      · rw [if_neg (show ¬x.toNat < y.toNat by omega), if_pos h1] at hab
        exact Bool.noConfusion hab

/-- Insertion into a sorted list, implementing Python's `sorted` on strings. -/
def insertStr (x : List Char) : List (List Char) → List (List Char)
  | [] => [x]
  | y :: ys => if strLeCh x y then x :: y :: ys else y :: insertStr x ys

/-- Model of Python's `sorted` on a list of strings (code-point lexicographic,
ascending). -/
def sortChs : List (List Char) → List (List Char)
  | [] => []
  | x :: xs => insertStr x (sortChs xs)

theorem perm_insertStr (x : List Char) : ∀ l, (insertStr x l).Perm (x :: l) := by
  intro l
  induction l with
  | nil => exact List.Perm.refl _
  | cons y ys ih =>
    rw [insertStr]
    split
    · exact List.Perm.refl _
    · exact (List.Perm.cons y ih).trans (List.Perm.swap x y ys)

theorem perm_sortChs : ∀ l, (sortChs l).Perm l := by
  intro l
  induction l with
  | nil => exact List.Perm.refl _
  | cons x xs ih =>
    rw [sortChs]
    exact (perm_insertStr x (sortChs xs)).trans (List.Perm.cons x ih)

theorem pairwise_insertStr {x : List Char} {l : List (List Char)}
    (h : l.Pairwise (fun a b => strLeCh a b = true)) :
    (insertStr x l).Pairwise (fun a b => strLeCh a b = true) := by
  induction l with
  | nil => simp [insertStr]
  | cons y ys ih =>
    rw [insertStr]
    rcases List.pairwise_cons.mp h with ⟨hy, hys⟩
    split
    · rename_i hxy
      refine List.pairwise_cons.mpr ⟨?_, h⟩
      intro b hb
      rcases List.mem_cons.mp hb with rfl | hb
      · exact hxy
      · exact strLeCh_trans _ _ _ hxy (hy b hb)
    · rename_i hxy
      have hyx : strLeCh y x = true := by
        rcases strLeCh_total x y with h' | h'
        · exact absurd h' hxy
        · exact h'
      refine List.pairwise_cons.mpr ⟨?_, ih hys⟩
      intro b hb
      have : b ∈ x :: ys := (perm_insertStr x ys).mem_iff.mp hb
      rcases List.mem_cons.mp this with rfl | hb'
      · exact hyx
      · exact hy b hb'

theorem pairwise_sortChs (l : List (List Char)) :
    (sortChs l).Pairwise (fun a b => strLeCh a b = true) := by
  induction l with
  | nil => simp [sortChs]
  | cons x xs ih => exact pairwise_insertStr ih

theorem sortChs_eq_of_perm {l1 l2 : List (List Char)} (h : l1.Perm l2) :
    sortChs l1 = sortChs l2 := by
  haveI : IsAntisymm (List Char) (fun a b => strLeCh a b = true) :=
    ⟨fun a b => strLeCh_antisymm a b⟩
  exact List.eq_of_perm_of_sorted
    (((perm_sortChs l1).trans h).trans (perm_sortChs l2).symm)
    (pairwise_sortChs l1) (pairwise_sortChs l2)

/-- Model of `sorted(preprocess_options)` from `get_db_path`, at the code-point level. -/
def pySorted (l : List String) : List (List Char) := sortChs (l.map String.data)

theorem pySorted_perm {l1 l2 : List String} (h : l1.Perm l2) :
    pySorted l1 = pySorted l2 :=
  sortChs_eq_of_perm (h.map String.data)

/-! ### Serialization of the cache-key configuration

`get_db_path` builds the dictionary

`config = \x7b"file_name": …, "model_name": …, "preprocess": sorted(…),
"chunking": \x7b"use": …, "size": …, "overlap": …\x7d,
"distance_metric": "cosine"\x7d`

and `get_config_hash` serializes it with `json.dumps(config, sort_keys=True)`
(default separators `", "` and `": "`, `ensure_ascii=True`) before hashing.
With keys sorted the rendering is: `chunking` (with inner keys
`overlap < size < use`), then `distance_metric`, `file_name`, `model_name`,
`preprocess`. -/

/-- JSON rendering of a Python bool. -/
def boolChars : Bool → List Char
  | true => ['t', 'r', 'u', 'e']
  | false => ['f', 'a', 'l', 's', 'e']

/-- Tail of a JSON array rendering after the first element: `", "`-separated
further string literals, then the closing bracket. -/
def arrTail : List (List Char) → List Char
  | [] => [']']
  | p :: ps => ',' :: ' ' :: (jstr p ++ arrTail ps)

/-- JSON rendering of an array of strings, as `json.dumps` renders a list. -/
def arrChars : List (List Char) → List Char
  | [] => ['[', ']']
  | p :: ps => '[' :: (jstr p ++ arrTail ps)

theorem arrTail_split : ∀ (A B : List (List Char)) (r1 r2 : List Char),
    arrTail A ++ r1 = arrTail B ++ r2 → A = B ∧ r1 = r2 := by
  intro A
  induction A with
  | nil =>
    intro B r1 r2 h
    match B with
    | [] => exact ⟨rfl, (List.cons.inj h).2⟩
    | q :: qs =>
      rw [arrTail, arrTail] at h
      exact absurd (List.cons.inj h).1 (by decide)
  | cons p ps ih =>
    intro B r1 r2 h
    match B with
    | [] =>
      rw [arrTail, arrTail] at h
      exact absurd (List.cons.inj h).1 (by decide)
    | q :: qs =>
      rw [arrTail, arrTail] at h
      simp only [List.cons_append, List.cons.injEq] at h
      obtain ⟨-, -, h3⟩ := h
      rw [List.append_assoc, List.append_assoc] at h3
      obtain ⟨rfl, h5⟩ := jstr_split h3
      obtain ⟨rfl, rfl⟩ := ih qs r1 r2 h5
      exact ⟨rfl, rfl⟩

theorem arrChars_split {A B : List (List Char)} {r1 r2 : List Char}
    (h : arrChars A ++ r1 = arrChars B ++ r2) : A = B ∧ r1 = r2 := by
  match A, B with
  | [], [] =>
    rw [arrChars] at h
    exact ⟨rfl, by simpa using h⟩
  | [], q :: qs =>
    rw [arrChars, arrChars, jstr] at h
    simp only [List.cons_append, List.cons.injEq] at h
    exact absurd h.2.1 (by decide)
  | p :: ps, [] =>
    rw [arrChars, arrChars, jstr] at h
    simp only [List.cons_append, List.cons.injEq] at h
    exact absurd h.2.1 (by decide)
  | p :: ps, q :: qs =>
    rw [arrChars, arrChars] at h
    simp only [List.cons_append, List.cons.injEq] at h
    rw [List.append_assoc, List.append_assoc] at h
    obtain ⟨rfl, h5⟩ := jstr_split h.2
    obtain ⟨rfl, rfl⟩ := arrTail_split ps qs r1 r2 h5
    exact ⟨rfl, rfl⟩

/-- Character list of a string literal. -/
def lit (s : String) : List Char := s.data

/-- The exact character sequence produced by
`json.dumps(config, sort_keys=True)` in `get_config_hash`, for the `config`
dictionary built by `get_db_path` (keys rendered in sorted order, preprocess
flags sorted, `distance_metric` fixed to `"cosine"`). -/
def serializedConfig (file_name model_name : String) (preprocess_options : List String)
    (use_chunking : Bool) (chunk_size chunk_overlap : Nat) : List Char :=
  lit "\x7b\"chunking\": \x7b\"overlap\": " ++ natChars chunk_overlap ++
  lit ", \"size\": " ++ natChars chunk_size ++
  lit ", \"use\": " ++ boolChars use_chunking ++
  lit "\x7d, \"distance_metric\": \"cosine\", \"file_name\": " ++ jstr file_name.data ++
  lit ", \"model_name\": " ++ jstr model_name.data ++
  lit ", \"preprocess\": " ++ arrChars (pySorted preprocess_options) ++
  lit "\x7d"

/-- Constant `CACHE_DIR` from the source. -/
def CACHE_DIR : String := "./vs_cache"

/-- Function `get_config_hash(config)`: the digest of the sorted-keys JSON
serialization.  The SHA-1 digest itself is an external library call
(`hashlib.sha1(…).hexdigest()`); it enters the model as the function
parameter `sha1`, quantified in the theorems. -/
def get_config_hash (sha1 : List Char → String) (serialized_config : List Char) : String :=
  sha1 serialized_config

/-- The directory name (`db_path.name`) of the cache path: the config hash. -/
def get_db_name (sha1 : List Char → String) (file_name model_name : String)
    (preprocess_options : List String) (use_chunking : Bool)
    (chunk_size chunk_overlap : Nat) : String :=
  get_config_hash sha1 (serializedConfig file_name model_name preprocess_options
    use_chunking chunk_size chunk_overlap)

/-- Function `get_db_path(...) = CACHE_DIR / config_hash`. -/
def get_db_path (sha1 : List Char → String) (file_name model_name : String)
    (preprocess_options : List String) (use_chunking : Bool)
    (chunk_size chunk_overlap : Nat) : String :=
  CACHE_DIR ++ "/" ++ get_db_name sha1 file_name model_name preprocess_options
    use_chunking chunk_size chunk_overlap

theorem boolChars_split {u1 u2 : Bool} {X1 X2 : List Char}
    (h : boolChars u1 ++ X1 = boolChars u2 ++ X2) : u1 = u2 ∧ X1 = X2 := by
  cases u1 <;> cases u2 <;> simp only [boolChars] at h
  · exact ⟨rfl, List.append_cancel_left h⟩
  · simp only [List.cons_append, List.cons.injEq] at h
    exact absurd h.1 (by decide)
  · simp only [List.cons_append, List.cons.injEq] at h
    exact absurd h.1 (by decide)
  · exact ⟨rfl, List.append_cancel_left h⟩

theorem string_append_cancel_left {a b c : String} (h : a ++ b = a ++ c) : b = c := by
  have h2 := congrArg String.data h
  simp only [String.data_append] at h2
  exact string_data_inj (List.append_cancel_left h2)

/-- The canonical serialization is injective up to sorting of the preprocess
flags: equal serializations force equal configuration values. -/
theorem serializedConfig_inj {f1 m1 : String} {p1 : List String} {u1 : Bool}
    {s1 o1 : Nat} {f2 m2 : String} {p2 : List String} {u2 : Bool} {s2 o2 : Nat}
    (h : serializedConfig f1 m1 p1 u1 s1 o1 = serializedConfig f2 m2 p2 u2 s2 o2) :
    f1 = f2 ∧ m1 = m2 ∧ pySorted p1 = pySorted p2 ∧ u1 = u2 ∧ s1 = s2 ∧ o1 = o2 := by
  unfold serializedConfig at h
  simp only [List.append_assoc] at h
  have h := List.append_cancel_left h
  rw [show lit ", \"size\": " = ',' :: lit " \"size\": " from rfl] at h
  obtain ⟨ho, -, h⟩ := natChars_split (by decide) (by decide) h
  have h := List.append_cancel_left h
  rw [show lit ", \"use\": " = ',' :: lit " \"use\": " from rfl] at h
  obtain ⟨hs, -, h⟩ := natChars_split (by decide) (by decide) h
  have h := List.append_cancel_left h
  obtain ⟨hu, h⟩ := boolChars_split h
  have h := List.append_cancel_left h
  obtain ⟨hf, h⟩ := jstr_split h
  have h := List.append_cancel_left h
  obtain ⟨hm, h⟩ := jstr_split h
  have h := List.append_cancel_left h
  obtain ⟨hp, -⟩ := arrChars_split h
  exact ⟨string_data_inj hf, string_data_inj hm, hp, hu, hs, ho⟩

/-- C1: `deriveKey` is order-independent in the preprocessing flags — for any
two option sets that are permutations of each other's preprocessing-flag
ordering (all other values equal), `get_db_path` produces the same cache key,
for every digest function, because the flag list is sorted and the
configuration is serialized with sorted keys before hashing. -/
theorem C1_deriveKey_flag_order_independent (sha1 : List Char → String)
    (file_name model_name : String) (p1 p2 : List String) (use_chunking : Bool)
    (chunk_size chunk_overlap : Nat) (hperm : p1.Perm p2) :
    get_db_path sha1 file_name model_name p1 use_chunking chunk_size chunk_overlap =
      get_db_path sha1 file_name model_name p2 use_chunking chunk_size chunk_overlap := by
  have hsort : pySorted p1 = pySorted p2 := pySorted_perm hperm
  unfold get_db_path get_db_name get_config_hash serializedConfig
  rw [hsort]

theorem C1_witness :
    (["중복 공백 정리", "소문자화"] : List String).Perm ["소문자화", "중복 공백 정리"] ∧
    get_db_path (fun c => String.mk c) "내장 샘플"
        "HuggingFace (multilingual-e5-large-instruct)" ["중복 공백 정리", "소문자화"]
        true 500 50 =
      get_db_path (fun c => String.mk c) "내장 샘플"
        "HuggingFace (multilingual-e5-large-instruct)" ["소문자화", "중복 공백 정리"]
        true 500 50 :=
  ⟨by decide, C1_deriveKey_flag_order_independent _ _ _ _ _ _ _ _ (by decide)⟩

/-- C2: `deriveKey` separates distinct option sets — if two option sets differ
in the data source identity, the model name, the (sorted) preprocessing flags,
the chunking switch, the chunk size, or the chunk overlap, then the canonical
serializations fed to the hash are distinct, and for an injective digest the
cache paths returned by `get_db_path` differ as well (the distance metric is
the constant `"cosine"`, so no two runs can differ in it). -/
theorem C2_deriveKey_separates (sha1 : List Char → String)
    (f1 m1 : String) (p1 : List String) (u1 : Bool) (s1 o1 : Nat)
    (f2 m2 : String) (p2 : List String) (u2 : Bool) (s2 o2 : Nat)
    (hdiff : ¬(f1 = f2 ∧ m1 = m2 ∧ pySorted p1 = pySorted p2 ∧ u1 = u2 ∧
      s1 = s2 ∧ o1 = o2)) :
    serializedConfig f1 m1 p1 u1 s1 o1 ≠ serializedConfig f2 m2 p2 u2 s2 o2 ∧
    (Function.Injective sha1 →
      get_db_path sha1 f1 m1 p1 u1 s1 o1 ≠ get_db_path sha1 f2 m2 p2 u2 s2 o2) := by
  constructor
  · intro h
    exact hdiff (serializedConfig_inj h)
  · intro hinj h
    unfold get_db_path get_db_name get_config_hash at h
    exact hdiff (serializedConfig_inj (hinj (string_append_cancel_left h)))

theorem C2_witness :
    serializedConfig "내장 샘플" "OpenAI (text-embedding-3-small)" ["소문자화"] true 500 50 ≠
      serializedConfig "내장 샘플" "Ollama (nomic-embed-text)" ["소문자화"] true 500 50 ∧
    get_db_path (fun c => String.mk c) "내장 샘플" "OpenAI (text-embedding-3-small)"
        ["소문자화"] true 500 50 ≠
      get_db_path (fun c => String.mk c) "내장 샘플" "Ollama (nomic-embed-text)"
        ["소문자화"] true 500 50 := by
  have h := C2_deriveKey_separates (fun c => String.mk c)
    "내장 샘플" "OpenAI (text-embedding-3-small)" ["소문자화"] true 500 50
    "내장 샘플" "Ollama (nomic-embed-text)" ["소문자화"] true 500 50 (by decide)
  exact ⟨h.1, h.2 (fun a b hab => by simpa using congrArg String.data hab)⟩

/-! ### Text preprocessing (`preprocess_text`)

The three checkbox options apply, in order: `str.lower`, removal of the
characters matching `[^\w\s]`, and `re.sub(r"\s+", " ", text).strip()`.

Character classes are modelled on the ranges the application exercises:
`str.lower` as the ASCII case map (the full Unicode simple case mapping is
identity on the Korean corpus and on ASCII lowercase); regex `\s` / `str.strip`
whitespace as the six ASCII whitespace characters; regex `\w` as ASCII
alphanumerics, the underscore, and all non-ASCII characters (Python's `\w` is
Unicode-aware; the distinction within the non-ASCII block does not affect any
property stated below, which hold for every choice of the character classes). -/

/-- Whitespace, as matched by `\s` and stripped by `str.strip`. -/
def isSpaceCh (c : Char) : Bool :=
  c = ' ' || c = '\t' || c = '\n' || c = '\r' || c = Char.ofNat 11 || c = Char.ofNat 12

/-- Model of `str.lower`, character-wise. -/
def pyLowerChar (c : Char) : Char :=
  if 65 ≤ c.toNat ∧ c.toNat ≤ 90 then Char.ofNat (c.toNat + 32) else c

/-- The characters kept by `re.sub(r"[^\w\s]", "", text)`: word characters and
whitespace. -/
def keepChar (c : Char) : Bool :=
  c.isAlphanum || c = '_' || decide (128 ≤ c.toNat) || isSpaceCh c

/-- State machine for `re.sub(r"\s+", " ", text)`: every maximal whitespace
run is replaced by a single space (`prevWs` records whether the previous
character was part of a run already emitted). -/
def collapseGo : Bool → List Char → List Char
  | _, [] => []
  | prevWs, c :: cs =>
    if isSpaceCh c then
      if prevWs then collapseGo true cs else ' ' :: collapseGo true cs
    else c :: collapseGo false cs

/-- Model of `re.sub(r"\s+", " ", text)`. -/
def collapseWs (l : List Char) : List Char := collapseGo false l

/-- Leading-whitespace removal (half of `str.strip`). -/
def dropLead (l : List Char) : List Char := l.dropWhile isSpaceCh

/-- Trailing-whitespace removal (the other half of `str.strip`). -/
def dropTrail : List Char → List Char
  | [] => []
  | c :: cs =>
    if dropTrail cs = [] && isSpaceCh c then [] else c :: dropTrail cs

/-- Model of `str.strip()`. -/
def pyStrip (l : List Char) : List Char := dropTrail (dropLead l)

/-- Function `preprocess_text`, at the code-point level: the three options applied in
source order, each conditional on its checkbox label being selected. -/
def preprocessChars (options : List String) (l : List Char) : List Char :=
  let l1 := if "소문자화" ∈ options then l.map pyLowerChar else l
  let l2 := if "숫자/기호 제거" ∈ options then l1.filter keepChar else l1
  if "중복 공백 정리" ∈ options then pyStrip (collapseWs l2) else l2

/-- Function `preprocess_text(text, options)`. -/
def preprocess_text (text : String) (options : List String) : String :=
  String.mk (preprocessChars options text.data)

theorem toNat_ofNat_small {n : Nat} (h : n < 55296) : (Char.ofNat n).toNat = n := by
  unfold Char.ofNat
  rw [dif_pos (Or.inl h)]
  rfl

theorem pyLowerChar_idem (c : Char) : pyLowerChar (pyLowerChar c) = pyLowerChar c := by
  unfold pyLowerChar
  split
  · rename_i h
    have ht : (Char.ofNat (c.toNat + 32)).toNat = c.toNat + 32 :=
      toNat_ofNat_small (by omega)
    rw [if_neg (by rw [ht]; omega)]
  · rfl

theorem pyLowerChar_space : pyLowerChar ' ' = ' ' := by decide

theorem keepChar_space : keepChar ' ' = true := by decide

/-- Characters of the whitespace-collapsed string come from the input or are
the space character. -/
theorem mem_collapseGo {c : Char} : ∀ (b : Bool) (l : List Char),
    c ∈ collapseGo b l → c = ' ' ∨ c ∈ l := by
  intro b l
  induction l generalizing b with
  | nil => intro h; simp [collapseGo] at h
  | cons x xs ih =>
    intro h
    rw [collapseGo] at h
    split at h
    · split at h
      · rcases ih true h with h' | h'
        · exact Or.inl h'
        · exact Or.inr (List.mem_cons_of_mem _ h')
      · rcases List.mem_cons.mp h with rfl | h'
        · exact Or.inl rfl
        · rcases ih true h' with h'' | h''
          · exact Or.inl h''
          · exact Or.inr (List.mem_cons_of_mem _ h'')
    · rcases List.mem_cons.mp h with rfl | h'
      · exact Or.inr (List.mem_cons_self _ _)
      · rcases ih false h' with h'' | h''
        · exact Or.inl h''
        · exact Or.inr (List.mem_cons_of_mem _ h'')

theorem mem_dropLead {c : Char} : ∀ l : List Char, c ∈ dropLead l → c ∈ l := by
  intro l
  induction l with
  | nil => intro h; simpa [dropLead] using h
  | cons x xs ih =>
    intro h
    rw [dropLead, List.dropWhile] at h
    split at h
    · exact List.mem_cons_of_mem _ (ih h)
    · exact h

theorem mem_dropTrail {c : Char} : ∀ l : List Char, c ∈ dropTrail l → c ∈ l := by
  intro l
  induction l with
  | nil => intro h; simpa [dropTrail] using h
  | cons x xs ih =>
    intro h
    rw [dropTrail] at h
    split at h
    · simp at h
    · rcases List.mem_cons.mp h with rfl | h'
      · exact List.mem_cons_self _ _
      · exact List.mem_cons_of_mem _ (ih h')

theorem mem_pyStrip {c : Char} (l : List Char) (h : c ∈ pyStrip l) : c ∈ l :=
  mem_dropLead l (mem_dropTrail (dropLead l) h)

theorem map_id_of_fix {f : Char → Char} : ∀ l : List Char,
    (∀ c ∈ l, f c = c) → l.map f = l := by
  intro l
  induction l with
  | nil => intro _; rfl
  | cons x xs ih =>
    intro h
    rw [List.map_cons, h x (List.mem_cons_self _ _), ih (fun c hc => h c (List.mem_cons_of_mem _ hc))]

/-- No two adjacent whitespace characters. -/
def NoRun : List Char → Prop
  | [] => True
  | [_] => True
  | a :: b :: t => ¬(isSpaceCh a = true ∧ isSpaceCh b = true) ∧ NoRun (b :: t)

/-- Every whitespace character is the plain space. -/
def AllSp (l : List Char) : Prop := ∀ c ∈ l, isSpaceCh c = true → c = ' '

/-- The first character, when present, is not whitespace. -/
def HeadNotSp : List Char → Prop
  | [] => True
  | c :: _ => isSpaceCh c = false

theorem noRun_tail {c : Char} {l : List Char} (h : NoRun (c :: l)) : NoRun l := by
  match l with
  | [] => trivial
  | d :: t => exact h.2

theorem noRun_cons {c : Char} {l : List Char} (h1 : NoRun l)
    (h2 : ∀ d, l.head? = some d → ¬(isSpaceCh c = true ∧ isSpaceCh d = true)) :
    NoRun (c :: l) := by
  match l with
  | [] => trivial
  | d :: t => exact ⟨h2 d rfl, h1⟩

theorem allSp_collapseGo : ∀ (b : Bool) (l : List Char), AllSp (collapseGo b l) := by
  intro b l
  induction l generalizing b with
  | nil => intro c hc; simp [collapseGo] at hc
  | cons x xs ih =>
    intro c hc hsp
    rw [collapseGo] at hc
    split at hc
    · split at hc
      · exact ih true c hc hsp
      · rcases List.mem_cons.mp hc with rfl | hc'
        · rfl
        · exact ih true c hc' hsp
    · rcases List.mem_cons.mp hc with rfl | hc'
      · rename_i hxsp
        rw [hsp] at hxsp
        exact absurd rfl hxsp
      · exact ih false c hc' hsp

theorem headNotSp_collapseGo_true : ∀ l : List Char, HeadNotSp (collapseGo true l) := by
  intro l
  induction l with
  | nil => trivial
  | cons x xs ih =>
    rw [collapseGo]
    split
    · exact ih
    · rename_i hx
      simpa [HeadNotSp] using Bool.not_eq_true _ ▸ (by simpa using hx)

theorem head?_collapseGo_true {l : List Char} {d : Char}
    (h : (collapseGo true l).head? = some d) : isSpaceCh d = false := by
  have hh := headNotSp_collapseGo_true l
  match hcg : collapseGo true l with
  | [] => rw [hcg] at h; simp at h
  | e :: t =>
    rw [hcg] at h hh
    simp only [List.head?_cons, Option.some.injEq] at h
    rw [← h]
    exact hh

theorem noRun_collapseGo : ∀ (b : Bool) (l : List Char), NoRun (collapseGo b l) := by
  intro b l
  induction l generalizing b with
  | nil => trivial
  | cons x xs ih =>
    rw [collapseGo]
    split
    · split
      · exact ih true
      · exact noRun_cons (ih true) (fun d hd => by
          rw [head?_collapseGo_true hd]
          simp)
    · rename_i hx
      exact noRun_cons (ih false) (fun d hd => by
        rw [show isSpaceCh x = false by simpa using hx]
        simp)

theorem collapse_fix : ∀ l : List Char, AllSp l → NoRun l →
    collapseGo false l = l ∧ (HeadNotSp l → collapseGo true l = l) := by
  intro l
  induction l with
  | nil => exact fun _ _ => ⟨rfl, fun _ => rfl⟩
  | cons x xs ih =>
    intro hsp hnr
    have hxs_sp : AllSp xs := fun c hc => hsp c (List.mem_cons_of_mem _ hc)
    have hxs_nr : NoRun xs := noRun_tail hnr
    by_cases hx : isSpaceCh x = true
    · have hx' : x = ' ' := hsp x (List.mem_cons_self _ _) hx
      have hhead : HeadNotSp xs := by
        match xs, hnr with
        | [], _ => trivial
        | d :: t, hnr =>
          have hpair := hnr.1
          show isSpaceCh d = false
          by_contra hd
          exact hpair ⟨hx, by simpa using hd⟩
      constructor
      · rw [collapseGo, if_pos hx]
        rw [if_neg (by simp)]
        rw [(ih hxs_sp hxs_nr).2 hhead, hx']
      · intro hh
        exfalso
        rw [show HeadNotSp (x :: xs) = (isSpaceCh x = false) from rfl] at hh
        rw [hx] at hh
        exact Bool.noConfusion hh
    · have hx' : isSpaceCh x = false := by simpa using hx
      constructor
      · rw [collapseGo, if_neg hx, (ih hxs_sp hxs_nr).1]
      · intro _
        rw [collapseGo, if_neg hx, (ih hxs_sp hxs_nr).1]

theorem headNotSp_dropLead : ∀ l : List Char, HeadNotSp (dropLead l) := by
  intro l
  induction l with
  | nil => trivial
  | cons x xs ih =>
    rw [dropLead, List.dropWhile]
    split
    · exact ih
    · rename_i hx
      simpa [HeadNotSp] using by simpa using hx

theorem dropLead_eq_self {l : List Char} (h : HeadNotSp l) : dropLead l = l := by
  match l, h with
  | [], _ => rfl
  | c :: cs, h =>
    rw [dropLead, List.dropWhile, show isSpaceCh c = false from h]

theorem dropTrail_head : ∀ (c : Char) (cs : List Char),
    dropTrail (c :: cs) = [] ∨ ∃ t, dropTrail (c :: cs) = c :: t := by
  intro c cs
  rw [dropTrail]
  split
  · exact Or.inl rfl
  · exact Or.inr ⟨dropTrail cs, rfl⟩

theorem headNotSp_dropTrail {l : List Char} (h : HeadNotSp l) : HeadNotSp (dropTrail l) := by
  match l, h with
  | [], _ => trivial
  | c :: cs, h =>
    rcases dropTrail_head c cs with h' | ⟨t, h'⟩
    · rw [h']; trivial
    · rw [h']; exact h

theorem dropTrail_idem : ∀ l : List Char, dropTrail (dropTrail l) = dropTrail l := by
  intro l
  induction l with
  | nil => rfl
  | cons x xs ih =>
    rw [dropTrail]
    split
    · rfl
    · rename_i hcond
      rw [dropTrail, ih]
      split
      · rename_i hcond2
        exfalso
        exact hcond (by simpa using hcond2)
      · rfl

theorem pyStrip_idem (l : List Char) : pyStrip (pyStrip l) = pyStrip l := by
  unfold pyStrip
  rw [dropLead_eq_self (headNotSp_dropTrail (headNotSp_dropLead l)), dropTrail_idem]

theorem noRun_dropLead {l : List Char} (h : NoRun l) : NoRun (dropLead l) := by
  induction l with
  | nil => trivial
  | cons x xs ih =>
    rw [dropLead, List.dropWhile]
    split
    · exact ih (noRun_tail h)
    · exact h

theorem head?_dropTrail {l : List Char} {d : Char} (h : (dropTrail l).head? = some d) :
    l.head? = some d := by
  match l with
  | [] => simp [dropTrail] at h
  | c :: cs =>
    rcases dropTrail_head c cs with h' | ⟨t, h'⟩
    · rw [h'] at h; simp at h
    · rw [h'] at h
      simp only [List.head?_cons, Option.some.injEq] at h
      rw [List.head?_cons, h]

theorem noRun_dropTrail : ∀ {l : List Char}, NoRun l → NoRun (dropTrail l) := by
  intro l
  induction l with
  | nil => exact fun _ => trivial
  | cons x xs ih =>
    intro h
    rw [dropTrail]
    split
    · trivial
    · refine noRun_cons (ih (noRun_tail h)) ?_
      intro d hd
      have hd' := head?_dropTrail hd
      match xs, hd', h with
      | e :: t, hd', h =>
        simp only [List.head?_cons, Option.some.injEq] at hd'
        rw [← hd']
        exact h.1

theorem allSp_sub {l m : List Char} (hsub : ∀ c ∈ m, c ∈ l) (h : AllSp l) : AllSp m :=
  fun c hc hsp => h c (hsub c hc) hsp

/-- Composition `strip(collapse(·))` is idempotent. -/
theorem stripCollapse_idem (z : List Char) :
    pyStrip (collapseWs (pyStrip (collapseWs z))) = pyStrip (collapseWs z) := by
  have hsp : AllSp (pyStrip (collapseWs z)) :=
    allSp_sub (fun c hc => mem_pyStrip _ hc) (allSp_collapseGo false z)
  have hnr : NoRun (pyStrip (collapseWs z)) :=
    noRun_dropTrail (noRun_dropLead (noRun_collapseGo false z))
  rw [show collapseWs (pyStrip (collapseWs z)) = pyStrip (collapseWs z) from
    (collapse_fix _ hsp hnr).1]
  exact pyStrip_idem (collapseWs z)

theorem lowFix_map (l : List Char) : ∀ c ∈ l.map pyLowerChar, pyLowerChar c = c := by
  intro c hc
  rcases List.mem_map.mp hc with ⟨a, -, rfl⟩
  exact pyLowerChar_idem a

theorem lowFix_filter {l : List Char} (h : ∀ c ∈ l, pyLowerChar c = c) :
    ∀ c ∈ l.filter keepChar, pyLowerChar c = c :=
  fun c hc => h c (List.mem_of_mem_filter hc)

theorem lowFix_stripCollapse {l : List Char} (h : ∀ c ∈ l, pyLowerChar c = c) :
    ∀ c ∈ pyStrip (collapseWs l), pyLowerChar c = c := by
  intro c hc
  rcases mem_collapseGo false l (mem_pyStrip _ hc) with rfl | hc'
  · exact pyLowerChar_space
  · exact h c hc'

theorem keepFix_filter (l : List Char) : ∀ c ∈ l.filter keepChar, keepChar c = true :=
  fun c hc => List.of_mem_filter hc

theorem keepFix_stripCollapse {l : List Char} (h : ∀ c ∈ l, keepChar c = true) :
    ∀ c ∈ pyStrip (collapseWs l), keepChar c = true := by
  intro c hc
  rcases mem_collapseGo false l (mem_pyStrip _ hc) with rfl | hc'
  · exact keepChar_space
  · exact h c hc'

theorem preprocessChars_idem (options : List String) (l : List Char) :
    preprocessChars options (preprocessChars options l) = preprocessChars options l := by
  by_cases h1 : "소문자화" ∈ options
  · by_cases h2 : "숫자/기호 제거" ∈ options
    · by_cases h3 : "중복 공백 정리" ∈ options
      · simp only [preprocessChars, if_pos h1, if_pos h2, if_pos h3]
        rw [map_id_of_fix _ (lowFix_stripCollapse (lowFix_filter (lowFix_map l))),
          List.filter_eq_self.mpr (keepFix_stripCollapse (keepFix_filter _))]
        exact stripCollapse_idem _
      · simp only [preprocessChars, if_pos h1, if_pos h2, if_neg h3]
        rw [map_id_of_fix _ (lowFix_filter (lowFix_map l))]
        exact List.filter_eq_self.mpr (keepFix_filter _)
    · by_cases h3 : "중복 공백 정리" ∈ options
      · simp only [preprocessChars, if_pos h1, if_neg h2, if_pos h3]
        rw [map_id_of_fix _ (lowFix_stripCollapse (lowFix_map l))]
        exact stripCollapse_idem _
      · simp only [preprocessChars, if_pos h1, if_neg h2, if_neg h3]
        exact map_id_of_fix _ (lowFix_map l)
  · by_cases h2 : "숫자/기호 제거" ∈ options
    · by_cases h3 : "중복 공백 정리" ∈ options
      · simp only [preprocessChars, if_neg h1, if_pos h2, if_pos h3]
        rw [List.filter_eq_self.mpr (keepFix_stripCollapse (keepFix_filter _))]
        exact stripCollapse_idem _
      · simp only [preprocessChars, if_neg h1, if_pos h2, if_neg h3]
        exact List.filter_eq_self.mpr (keepFix_filter _)
    · by_cases h3 : "중복 공백 정리" ∈ options
      · simp only [preprocessChars, if_neg h1, if_neg h2, if_pos h3]
        exact stripCollapse_idem _
      · simp only [preprocessChars, if_neg h1, if_neg h2, if_neg h3]

/-- C10: `preprocess_text` is idempotent — for every text and every subset of
the preprocessing options (lowercasing, symbol and punctuation removal,
whitespace collapsing), applying it twice with the same options returns the
result of applying it once. -/
theorem C10_preprocess_text_idempotent (text : String) (options : List String) :
    preprocess_text (preprocess_text text options) options = preprocess_text text options := by
  unfold preprocess_text
  exact congrArg String.mk (preprocessChars_idem options text.data)

/-- The Lean rendering agrees character for character with CPython's
`json.dumps(config, sort_keys=True)` on a sample configuration (expected
string computed with the real `json` module). -/
example : serializedConfig "내장 샘플" "HuggingFace (multilingual-e5-large-instruct)"
    ["중복 공백 정리", "소문자화"] true 500 50 =
    ("\x7b\"chunking\": \x7b\"overlap\": 50, \"size\": 500, \"use\": true\x7d, \"distance_metric\": \"cosine\", \"file_name\": \"\\ub0b4\\uc7a5 \\uc0d8\\ud50c\", \"model_name\": \"HuggingFace (multilingual-e5-large-instruct)\", \"preprocess\": [\"\\uc18c\\ubb38\\uc790\\ud654\", \"\\uc911\\ubcf5 \\uacf5\\ubc31 \\uc815\\ub9ac\"]\x7d" : String).data := by
  decide

/-! ### Data model of the vector-store demo -/

/-- One sentence of the corpus, with its category label. -/
structure DataItem where
  category : String
  text : String
deriving DecidableEq

/-- Function `get_sample_data()`: the built-in sample corpus. -/
def get_sample_data : List DataItem :=
  [⟨"일상", "오늘 날씨가 정말 좋네요."⟩,
   ⟨"일상", "점심으로 무엇을 먹을까요?"⟩,
   ⟨"일상", "저는 지금 커피를 마시고 있어요."⟩,
   ⟨"일상", "What a beautiful day!"⟩,
   ⟨"IT", "최신 AI 모델의 성능이 놀랍습니다."⟩,
   ⟨"IT", "파이썬은 배우기 쉬운 프로그래밍 언어입니다."⟩,
   ⟨"IT", "이 버그는 어떻게 해결해야 할까요?"⟩,
   ⟨"IT", "The new API is much faster."⟩,
   ⟨"비즈니스", "다음 분기 실적 발표가 기대됩니다."⟩,
   ⟨"비즈니스", "새로운 마케팅 전략이 필요합니다."⟩,
   ⟨"비즈니스", "계약서 검토를 완료했습니다."⟩,
   ⟨"비즈니스", "We need to increase our market share."⟩,
   ⟨"과학", "우주의 신비는 끝이 없습니다."⟩,
   ⟨"과학", "새로운 논문이 네이처에 게재되었습니다."⟩,
   ⟨"과학", "양자역학은 매우 흥미로운 분야입니다."⟩,
   ⟨"과학", "Photosynthesis is a complex process."⟩,
   ⟨"스포츠", "손흥민 선수가 또 골을 넣었습니다."⟩,
   ⟨"스포츠", "이번 월드컵은 정말 재미있네요."⟩,
   ⟨"스포츠", "저는 야구 보는 것을 좋아합니다."⟩,
   ⟨"스포츠", "The crowd went wild after the touchdown."⟩,
   ⟨"예술", "이 그림은 정말 아름답습니다."⟩,
   ⟨"예술", "저는 클래식 음악을 즐겨 듣습니다."⟩,
   ⟨"예술", "셰익스피어의 희곡은 시대를 초월합니다."⟩,
   ⟨"예술", "Her voice is simply mesmerizing."⟩,
   ⟨"역사", "조선왕조실록은 유네스코 세계기록유산입니다."⟩,
   ⟨"역사", "로마 제국의 역사는 매우 흥미롭습니다."⟩,
   ⟨"역사", "제2차 세계대전은 인류에게 큰 상처를 남겼습니다."⟩,
   ⟨"역사", "The Renaissance was a pivotal period in history."⟩,
   ⟨"건강", "규칙적인 운동은 건강에 좋습니다."⟩,
   ⟨"건강", "충분한 수면을 취하는 것이 중요합니다."⟩,
   ⟨"건강", "비타민 C는 면역력 강화에 도움이 됩니다."⟩,
   ⟨"건강", "A balanced diet is key to good health."⟩]

/-- The embedding backends the model selector can name. -/
inductive Embedder where
  | hf
  | openai
  | upstage
  | ollama
deriving DecidableEq

/-- Function `get_embedder(model_name)`: resolves the dropdown label to a backend.
The OpenAI and Upstage branches return `None` when the respective API-key
environment variable is absent (`envOpenai` / `envUpstage` model
`os.environ.get`); unknown labels return `None`.  Constructing the
HuggingFace/Ollama embedder objects is an external library call modelled as
always succeeding (their network failures surface later, at embedding time). -/
def get_embedder (envOpenai envUpstage : Bool) (model_name : String) : Option Embedder :=
  if model_name = "HuggingFace (multilingual-e5-large-instruct)" then some .hf
  else if model_name = "OpenAI (text-embedding-3-small)" then
    if envOpenai then some .openai else none
  else if model_name = "Upstage (solar-embedding-1-large)" then
    if envUpstage then some .upstage else none
  else if model_name = "Ollama (nomic-embed-text)" then some .ollama
  else none

/-- An uploaded file handle (`file_obj`): only its `name` attribute is read. -/
structure FileObj where
  name : String
deriving DecidableEq

/-- Model of `os.path.basename`: the part after the last path separator. -/
def basename (p : String) : String :=
  String.mk (p.data.reverse.takeWhile (· ≠ '/')).reverse

/-- The lowercased extension produced by `os.path.splitext(...)[1].lower()`:
the suffix of the final path component starting at its last dot, unless every
character before that dot is itself a dot (leading-dot names have no
extension). -/
def splitextLower (p : String) : String :=
  let b := (basename p).data
  let revAfter := b.reverse.takeWhile (· ≠ '.')
  if revAfter.length = b.length then ""
  else
    let stem := b.take (b.length - revAfter.length - 1)
    if stem.all (· = '.') then ""
    else String.mk (('.' :: revAfter.reverse).map pyLowerChar)

/-- Function `load_sentences(source_type, file_obj, use_chunking, chunk_size,
chunk_overlap)`.  The external parsers enter as oracles:
`pdfExtract` is the text PyMuPDF extracts from the file (with the trailing
newline per page already appended), `none` modelling an exception during
parsing; `csvParse` is the row list the pandas/CSV branch builds, `none`
modelling an exception; `splitText` is
`RecursiveCharacterTextSplitter(chunk_size, chunk_overlap).split_text`. -/
def load_sentences (pdfExtract : String → Option String)
    (csvParse : String → Option (List DataItem))
    (splitText : Nat → Nat → String → List String)
    (source_type : String) (file_obj : Option FileObj) (use_chunking : Bool)
    (chunk_size chunk_overlap : Nat) : List DataItem :=
  if source_type = "내장 샘플" then get_sample_data
  else
    match file_obj with
    | none => []
    | some f =>
      let ext := splitextLower f.name
      if ext = ".pdf" then
        match pdfExtract f.name with
        | none => []
        | some raw_text =>
          if use_chunking ∧ raw_text ≠ "" ∧ source_type = "PDF 업로드" then
            ((splitText chunk_size chunk_overlap raw_text).filter
              (fun chunk => pyStrip chunk.data ≠ [])).map
              (fun chunk => ⟨"PDF-Chunked", chunk⟩)
          else if raw_text ≠ "" then
            ((raw_text.data.splitOn '\n').filter (fun line => pyStrip line ≠ [])).map
              (fun line => ⟨"PDF", String.mk (pyStrip line)⟩)
          else []
      else if ext = ".csv" then
        match csvParse f.name with
        | none => []
        | some rows => rows
      else []

/-! ### The vector-store cache (`create_or_load_vector_store`)

The on-disk cache of persisted Chroma indexes is modelled as an association
list from directory path to the list of stored documents; `db_path.exists()`
is lookup success, `Chroma(persist_directory=…)` returns the stored documents,
and `Chroma.from_documents(…, persist_directory=…)` stores them. -/

/-- A stored document: `page_content` plus the `category` metadata entry
(`none` models a document whose metadata lacks the key). -/
structure DocEntry where
  page_content : String
  category : Option String
deriving DecidableEq

/-- The persisted state: one entry per existing persist directory. -/
abbrev Disk := List (String × List DocEntry)

/-- Lookup modelling `db_path.exists()` and loading the persisted collection at `p`. -/
def diskGet (d : Disk) (p : String) : Option (List DocEntry) :=
  (d.find? (fun e => e.1 == p)).map (·.2)

/-- Creating (or overwriting) the persist directory at `p`. -/
def diskSet (d : Disk) (p : String) (v : List DocEntry) : Disk := (p, v) :: d

/-- Result of one `create_or_load_vector_store` call: the returned store (its
document list, `none` on failure), the status message, and the disk state
after the call. -/
structure VSOutcome where
  store : Option (List DocEntry)
  status : String
  disk : Disk
deriving DecidableEq

/-- Computation of `file_name`: `os.path.basename(file_obj.name)` with a file, else the built-in sample label. -/
def resolved_file_name (file_obj : Option FileObj) : String :=
  match file_obj with
  | some f => basename f.name
  | none => "내장 샘플"

/-- Function `create_or_load_vector_store(source_type, file_obj, model_name,
preprocess_options, use_chunking, chunk_size, chunk_overlap)`.

`embedErr = some e` models the embedding backend raising exception `e` during
`Chroma.from_documents`.  In that case the model records an *empty* collection
under `db_path` before returning the error: `Chroma.from_documents` first
constructs the `Chroma` instance — whose chromadb `PersistentClient` creates
the persist directory and the still-empty collection eagerly — and only then
calls the embedder to add the documents, so when the embedding call raises,
the directory already exists on disk and the source's `except` branch returns
without removing it. -/
def create_or_load_vector_store (sha1 : List Char → String)
    (pdfExtract : String → Option String) (csvParse : String → Option (List DataItem))
    (splitText : Nat → Nat → String → List String)
    (envOpenai envUpstage : Bool) (embedErr : Option String) (disk : Disk)
    (source_type : String) (file_obj : Option FileObj) (model_name : String)
    (preprocess_options : List String) (use_chunking : Bool)
    (chunk_size chunk_overlap : Nat) : VSOutcome :=
  if (source_type = "PDF 업로드" ∨ source_type = "CSV 업로드") ∧ file_obj = none then
    ⟨none, "오류: 파일이 없습니다.", disk⟩
  else
    let file_name := resolved_file_name file_obj
    let db_path := get_db_path sha1 file_name model_name preprocess_options
      use_chunking chunk_size chunk_overlap
    let db_name := get_db_name sha1 file_name model_name preprocess_options
      use_chunking chunk_size chunk_overlap
    match get_embedder envOpenai envUpstage model_name with
    | none => ⟨none, "오류: 임베딩 모델 로딩 실패", disk⟩
    | some _ =>
      match diskGet disk db_path with
      | some docs => ⟨some docs, "✅ 로드 완료: " ++ db_name, disk⟩
      | none =>
        let data := load_sentences pdfExtract csvParse splitText source_type file_obj
          use_chunking chunk_size chunk_overlap
        if data = [] then ⟨none, "오류: 데이터 로딩 실패", disk⟩
        else
          let documents := data.map (fun item =>
            DocEntry.mk (preprocess_text item.text preprocess_options) (some item.category))
          match embedErr with
          | none => ⟨some documents, "✅ 생성 및 저장 완료: " ++ db_name,
              diskSet disk db_path documents⟩
          | some e => ⟨none, "오류: " ++ e, diskSet disk db_path []⟩

theorem diskGet_set (d : Disk) (p : String) (v : List DocEntry) :
    diskGet (diskSet d p v) p = some v := by
  simp [diskGet, diskSet, List.find?]

/-- C3: `resolveIndex` behaves as create-then-load.  With a loadable embedder
and the file requirement satisfied: if a persisted structure exists at the
derived key it is loaded and returned with the loaded status and the disk
unchanged (for any embedding behaviour, since the load branch never embeds);
otherwise, when the source data loads non-empty and the embedding succeeds,
the index built from the loaded (preprocessed) data is persisted under the key
and returned with the created status — and a second call with identical
options then returns the loaded status with the same underlying documents. -/
theorem C3_resolveIndex_create_then_load (sha1 : List Char → String)
    (pdfExtract : String → Option String) (csvParse : String → Option (List DataItem))
    (splitText : Nat → Nat → String → List String) (envOpenai envUpstage : Bool)
    (disk : Disk) (source_type : String) (file_obj : Option FileObj)
    (model_name : String) (preprocess_options : List String) (use_chunking : Bool)
    (chunk_size chunk_overlap : Nat) (e : Embedder)
    (hemb : get_embedder envOpenai envUpstage model_name = some e)
    (hfile : ¬((source_type = "PDF 업로드" ∨ source_type = "CSV 업로드") ∧
      file_obj = none)) :
    let db_path := get_db_path sha1 (resolved_file_name file_obj) model_name
      preprocess_options use_chunking chunk_size chunk_overlap
    let db_name := get_db_name sha1 (resolved_file_name file_obj) model_name
      preprocess_options use_chunking chunk_size chunk_overlap
    let data := load_sentences pdfExtract csvParse splitText source_type file_obj
      use_chunking chunk_size chunk_overlap
    let docs := data.map (fun item =>
      DocEntry.mk (preprocess_text item.text preprocess_options) (some item.category))
    (∀ (embedErr : Option String) (docs0 : List DocEntry),
      diskGet disk db_path = some docs0 →
      create_or_load_vector_store sha1 pdfExtract csvParse splitText envOpenai envUpstage
        embedErr disk source_type file_obj model_name preprocess_options use_chunking
        chunk_size chunk_overlap = ⟨some docs0, "✅ 로드 완료: " ++ db_name, disk⟩) ∧
    (diskGet disk db_path = none → data ≠ [] →
      create_or_load_vector_store sha1 pdfExtract csvParse splitText envOpenai envUpstage
        none disk source_type file_obj model_name preprocess_options use_chunking
        chunk_size chunk_overlap =
        ⟨some docs, "✅ 생성 및 저장 완료: " ++ db_name, diskSet disk db_path docs⟩ ∧
      ∀ embedErr2 : Option String,
        create_or_load_vector_store sha1 pdfExtract csvParse splitText envOpenai envUpstage
          embedErr2 (diskSet disk db_path docs) source_type file_obj model_name
          preprocess_options use_chunking chunk_size chunk_overlap =
          ⟨some docs, "✅ 로드 완료: " ++ db_name, diskSet disk db_path docs⟩) := by
  intro db_path db_name data docs
  constructor
  · intro embedErr docs0 h
    simp only [create_or_load_vector_store, if_neg hfile, hemb]
    simp only [show diskGet disk (get_db_path sha1 (resolved_file_name file_obj) model_name
      preprocess_options use_chunking chunk_size chunk_overlap) = some docs0 from h]
  · intro habs hdata
    constructor
    · simp only [create_or_load_vector_store, if_neg hfile, hemb]
      simp only [show diskGet disk (get_db_path sha1 (resolved_file_name file_obj) model_name
        preprocess_options use_chunking chunk_size chunk_overlap) = none from habs]
      rw [if_neg hdata]
    · intro embedErr2
      simp only [create_or_load_vector_store, if_neg hfile, hemb]
      simp only [diskGet_set]

/-- Concrete digest stand-in for witnesses: a constant function (any function
works for the theorems that do not need injectivity). -/
def w_sha1 : List Char → String := fun _ => "h"

/-- Concrete parser oracles for witnesses (never consulted for the built-in
sample source). -/
def w_pdf : String → Option String := fun _ => none

def w_csv : String → Option (List DataItem) := fun _ => none

def w_split : Nat → Nat → String → List String := fun _ _ _ => []

def w_model : String := "HuggingFace (multilingual-e5-large-instruct)"

/-- The documents persisted for the built-in sample with no preprocessing. -/
def w_docs : List DocEntry :=
  get_sample_data.map (fun item => ⟨preprocess_text item.text [], some item.category⟩)

theorem C3_witness :
    create_or_load_vector_store w_sha1 w_pdf w_csv w_split false false none []
        "내장 샘플" none w_model [] true 500 50 =
      ⟨some w_docs, "✅ 생성 및 저장 완료: " ++
        get_db_name w_sha1 "내장 샘플" w_model [] true 500 50,
        diskSet [] (get_db_path w_sha1 "내장 샘플" w_model [] true 500 50) w_docs⟩ ∧
    create_or_load_vector_store w_sha1 w_pdf w_csv w_split false false none
        (diskSet [] (get_db_path w_sha1 "내장 샘플" w_model [] true 500 50) w_docs)
        "내장 샘플" none w_model [] true 500 50 =
      ⟨some w_docs, "✅ 로드 완료: " ++
        get_db_name w_sha1 "내장 샘플" w_model [] true 500 50,
        diskSet [] (get_db_path w_sha1 "내장 샘플" w_model [] true 500 50) w_docs⟩ := by
  have h := C3_resolveIndex_create_then_load w_sha1 w_pdf w_csv w_split false false []
    "내장 샘플" none w_model [] true 500 50 Embedder.hf (by decide) (by decide)
  have h2 := h.2 (by decide) (by decide)
  exact ⟨h2.1, h2.2 none⟩

/-- C4, evidence of the divergence: a failed index build (embedding backend
raising inside `Chroma.from_documents`) returns the error status but leaves
the freshly created persist directory behind, so the *next* call with the
same options finds `db_path.exists()` true and returns the loaded status with
an empty store — not the created status the claim requires. -/
theorem C4_failed_build_leaves_loadable_state :
    create_or_load_vector_store w_sha1 w_pdf w_csv w_split false false
        (some "임베딩 백엔드 연결 실패") [] "내장 샘플" none w_model [] true 500 50 =
      ⟨none, "오류: 임베딩 백엔드 연결 실패", [("./vs_cache/h", [])]⟩ ∧
    create_or_load_vector_store w_sha1 w_pdf w_csv w_split false false
        (some "임베딩 백엔드 연결 실패") [("./vs_cache/h", [])]
        "내장 샘플" none w_model [] true 500 50 =
      ⟨some [], "✅ 로드 완료: h", [("./vs_cache/h", [])]⟩ := by
  constructor
  · decide
  · decide

/-! ### Similarity search: direct mode and indexed mode

Embedding vectors are lists of rationals (the float scores the libraries
return, modelled exactly); the embedding backends, `sklearn`'s `normalize` and
`cosine_similarity`, and the Chroma index's `similarity_search_with_score`
enter as function parameters, quantified in the theorems.  The bar plot, the
natural-language summary and the `"{:.4f}"` display formatting of the score
column are presentation-layer output and are not modelled; the result rows
carry the exact scores. -/

/-- One row of the result table before rank insertion: score (`유사도`),
original sentence (`문장`), category (`카테고리`). -/
structure ResultRow where
  score : ℚ
  sentence : String
  category : String
deriving DecidableEq

/-- A row after `df.insert(0, "순위", range(1, len(df) + 1))`. -/
structure RankedRow where
  rank : Nat
  score : ℚ
  sentence : String
  category : String
deriving DecidableEq

/-- Outcome of one search call.  `failure` marks the branches that signal
`gr.Warning`/`gr.Error` and return an empty table; `noMatch` is the normal
return of an empty table with only an informational message; `success`
carries the ranked rows. -/
inductive Outcome where
  | failure (msg : String)
  | noMatch (msg : String)
  | success (rows : List RankedRow)
deriving DecidableEq

/-- Insertion into a list sorted by descending score. -/
def insertRowDesc (x : ResultRow) : List ResultRow → List ResultRow
  | [] => [x]
  | y :: ys => if x.score ≥ y.score then x :: y :: ys else y :: insertRowDesc x ys

/-- Model of `df.sort_values(by="유사도", ascending=False)`: sorting by descending
score.  pandas' default quicksort leaves the order of tied rows unspecified;
the model fixes one deterministic comparison sort, used identically on the
code side and on the reference side. -/
def sortRowsDesc : List ResultRow → List ResultRow
  | [] => []
  | x :: xs => insertRowDesc x (sortRowsDesc xs)

/-- Rank insertion: row `i` (0-based) receives rank `i + 1`. -/
def rankRows (rows : List ResultRow) : List RankedRow :=
  rows.enum.map (fun p => ⟨p.1 + 1, p.2.score, p.2.sentence, p.2.category⟩)

/-- Function `calculate_similarity(query, data, model_name, top_k, threshold,
preprocess_options)` — the direct (brute-force) mode.

`embedQuery`/`embedDoc` model `embed_query` and the per-document action of
`embed_documents` (for the Upstage branch they stand for the query/passage
pair); `embedOk = false` models an exception from the embedding call (the
`except` branch; its message interpolates the backend exception and is
abbreviated here).  `normalizeV` is `sklearn.preprocessing.normalize(·, "l2")`
and `cosSim` is `sklearn.metrics.pairwise.cosine_similarity` of one vector
against one vector. -/
def calculate_similarity (embedQuery embedDoc : String → List ℚ)
    (normalizeV : List ℚ → List ℚ) (cosSim : List ℚ → List ℚ → ℚ)
    (envOpenai envUpstage : Bool) (embedOk : Bool) (query : String)
    (data : List DataItem) (model_name : String) (top_k : Nat) (threshold : ℚ)
    (preprocess_options : List String) : Outcome :=
  if query = "" then .failure "기준 문장을 입력해주세요."
  else if data = [] then .failure "비교할 데이터가 없습니다."
  else
    match get_embedder envOpenai envUpstage model_name with
    | none => .failure ("임베딩 모델 로딩 실패: " ++ model_name ++
        " 모델을 불러올 수 없습니다. API 키 등을 확인해주세요.")
    | some _ =>
      if embedOk = false then .failure "임베딩 생성 중 오류"
      else
        let processed_query := preprocess_text query preprocess_options
        let sentences := data.map (fun item => item.text)
        let processed_sentences := sentences.map (fun s => preprocess_text s preprocess_options)
        let query_vec := embedQuery processed_query
        let doc_vecs := processed_sentences.map embedDoc
        let query_vec_normalized := normalizeV query_vec
        let doc_vecs_normalized := doc_vecs.map normalizeV
        let sim_matrix := doc_vecs_normalized.map (cosSim query_vec_normalized)
        let results := ((sim_matrix.zip data).filter (fun p => p.1 ≥ threshold)).map
          (fun p => ResultRow.mk p.1 p.2.text p.2.category)
        if results = [] then
          .noMatch ("유사도 임계치(" ++ toString threshold ++
            ")를 넘는 문장을 찾지 못했습니다. 임계치를 낮추거나 다른 모델을 사용해 보세요.")
        else
          .success (rankRows ((sortRowsDesc results).take top_k))

/-- The spec's reference pipeline for direct mode, written from its words:
compute the query embedding and the document embeddings fresh, normalize both
to unit length, compute cosine similarity per document, keep exactly the
documents whose score is at least the threshold, sort by score descending,
truncate to the top-K rows (rows show the original sentence and category). -/
def directReference (embedQuery embedDoc : String → List ℚ)
    (normalizeV : List ℚ → List ℚ) (cosSim : List ℚ → List ℚ → ℚ) (query : String)
    (data : List DataItem) (top_k : Nat) (threshold : ℚ)
    (preprocess_options : List String) : List ResultRow :=
  let qv := normalizeV (embedQuery (preprocess_text query preprocess_options))
  let scored := data.map (fun item =>
    ResultRow.mk (cosSim qv (normalizeV (embedDoc (preprocess_text item.text preprocess_options))))
      item.text item.category)
  (sortRowsDesc (scored.filter (fun r => r.score ≥ threshold))).take top_k

/-- Function `search_from_vector_store(query, vector_store, top_k, model_name,
preprocess_options)` — the indexed mode.  `searchFn` models the store's
`similarity_search_with_score(query=…, k=…)`: the pairs of returned document
and native distance, in the index's return order. -/
def search_from_vector_store (searchFn : String → Nat → List (DocEntry × ℚ))
    (query : String) (vector_store : Option (List DocEntry)) (top_k : Nat)
    (model_name : String) (preprocess_options : List String) : Outcome :=
  if query = "" then .failure "기준 문장을 입력해주세요."
  else
    match vector_store with
    | none => .failure "Vector Store가 준비되지 않았습니다."
    | some _ =>
      let processed_query := preprocess_text query preprocess_options
      let results_with_scores := searchFn processed_query top_k
      if results_with_scores = [] then .noMatch "유사한 문장을 찾지 못했습니다."
      else
        .success (rankRows (results_with_scores.map (fun p =>
          ResultRow.mk (1 - p.2) p.1.page_content (p.1.category.getD "N/A"))))

/-- Function `run_analysis_wrapper`: the router.  Returns `none` for an unknown
backend label (the `raise ValueError` branch); the pass-through of the
`vector_store` state variable carries no information and is omitted.  The
empty-data return of the direct branch shows a message without results and is
classified `failure` (a data error in the spec's taxonomy). -/
def run_analysis_wrapper (embedQuery embedDoc : String → List ℚ)
    (normalizeV : List ℚ → List ℚ) (cosSim : List ℚ → List ℚ → ℚ)
    (searchFn : String → Nat → List (DocEntry × ℚ))
    (pdfExtract : String → Option String) (csvParse : String → Option (List DataItem))
    (splitText : Nat → Nat → String → List String)
    (envOpenai envUpstage : Bool) (embedOk : Bool) (backend query : String)
    (vector_store : Option (List DocEntry)) (model_name : String) (top_k : Nat)
    (threshold : ℚ) (preprocess_options : List String) (source_type : String)
    (file_obj : Option FileObj) (use_chunking : Bool)
    (chunk_size chunk_overlap : Nat) : Option Outcome :=
  if backend = "직접 계산 (기존 방식)" then
    let data := load_sentences pdfExtract csvParse splitText source_type file_obj
      use_chunking chunk_size chunk_overlap
    if data = [] then some (.failure "데이터를 불러오지 못했습니다. 소스를 확인해주세요.")
    else some (calculate_similarity embedQuery embedDoc normalizeV cosSim envOpenai
      envUpstage embedOk query data model_name top_k threshold preprocess_options)
  else if backend = "ChromaDB Vector Store" then
    some (search_from_vector_store searchFn query vector_store top_k model_name
      preprocess_options)
  else none

/-- The rows of an outcome (empty for the failure and no-match cases). -/
def rowsOf : Outcome → List RankedRow
  | .success rows => rows
  | _ => []

theorem calc_rows_eq (f : DataItem → ℚ) (th : ℚ) (data : List DataItem) :
    (((data.map f).zip data).filter (fun p => p.1 ≥ th)).map
      (fun p => ResultRow.mk p.1 p.2.text p.2.category)
    = (data.map (fun item => ResultRow.mk (f item) item.text item.category)).filter
      (fun r => r.score ≥ th) := by
  induction data with
  | nil => rfl
  | cons d ds ih =>
    rw [List.map_cons, List.zip_cons_cons, List.filter_cons, List.map_cons,
      List.filter_cons]
    by_cases h : f d ≥ th
    · rw [if_pos (by simp [h]), if_pos (by simp [h]), List.map_cons, ih]
    · rw [if_neg (by simp [h]), if_neg (by simp [h]), ih]

/-- Reduction of the direct mode on the success path of embedder loading and
embedding: the outcome is determined by the set of rows clearing the
threshold. -/
theorem calculate_similarity_eq (embedQuery embedDoc : String → List ℚ)
    (normalizeV : List ℚ → List ℚ) (cosSim : List ℚ → List ℚ → ℚ)
    (envOpenai envUpstage : Bool) (query : String) (data : List DataItem)
    (model_name : String) (top_k : Nat) (threshold : ℚ)
    (preprocess_options : List String) (e : Embedder) (hq : query ≠ "")
    (hd : data ≠ [])
    (hemb : get_embedder envOpenai envUpstage model_name = some e) :
    calculate_similarity embedQuery embedDoc normalizeV cosSim envOpenai envUpstage
      true query data model_name top_k threshold preprocess_options =
      (let kept := (data.map (fun item => ResultRow.mk
          (cosSim (normalizeV (embedQuery (preprocess_text query preprocess_options)))
            (normalizeV (embedDoc (preprocess_text item.text preprocess_options))))
          item.text item.category)).filter (fun r => r.score ≥ threshold)
       if kept = [] then
        .noMatch ("유사도 임계치(" ++ toString threshold ++
          ")를 넘는 문장을 찾지 못했습니다. 임계치를 낮추거나 다른 모델을 사용해 보세요.")
       else .success (rankRows ((sortRowsDesc kept).take top_k))) := by
  simp only [calculate_similarity, if_neg hq, if_neg hd, hemb,
    if_neg (show ¬(true = false) by decide), List.map_map]
  rw [show ((fun s => preprocess_text s preprocess_options) ∘ fun item => item.text) =
    (fun item : DataItem => preprocess_text item.text preprocess_options) from rfl]
  rw [show cosSim (normalizeV (embedQuery (preprocess_text query preprocess_options))) ∘
      normalizeV ∘ embedDoc ∘ (fun item : DataItem =>
        preprocess_text item.text preprocess_options) =
    (fun item : DataItem => cosSim
      (normalizeV (embedQuery (preprocess_text query preprocess_options)))
      (normalizeV (embedDoc (preprocess_text item.text preprocess_options)))) from rfl]
  rw [calc_rows_eq]

/-- C5: direct mode equals the reference pipeline — for every non-empty query
and non-empty corpus with a loadable embedder and successful embeddings, the
direct mode computes the query and document embeddings fresh from the
(preprocessed) texts, normalizes both, scores each document by cosine
similarity, keeps exactly the documents whose score is at least the
threshold, sorts them by score descending and truncates to the top-K rows —
i.e. it returns exactly `directReference`; and when no document clears the
threshold it returns the empty no-match outcome. -/
theorem C5_direct_mode_matches_reference (embedQuery embedDoc : String → List ℚ)
    (normalizeV : List ℚ → List ℚ) (cosSim : List ℚ → List ℚ → ℚ)
    (envOpenai envUpstage : Bool) (query : String) (data : List DataItem)
    (model_name : String) (top_k : Nat) (threshold : ℚ)
    (preprocess_options : List String) (e : Embedder) (hq : query ≠ "")
    (hd : data ≠ [])
    (hemb : get_embedder envOpenai envUpstage model_name = some e) :
    let kept := (data.map (fun item => ResultRow.mk
        (cosSim (normalizeV (embedQuery (preprocess_text query preprocess_options)))
          (normalizeV (embedDoc (preprocess_text item.text preprocess_options))))
        item.text item.category)).filter (fun r => r.score ≥ threshold)
    (kept ≠ [] →
      calculate_similarity embedQuery embedDoc normalizeV cosSim envOpenai envUpstage
        true query data model_name top_k threshold preprocess_options =
      .success (rankRows (directReference embedQuery embedDoc normalizeV cosSim query
        data top_k threshold preprocess_options))) ∧
    (kept = [] →
      calculate_similarity embedQuery embedDoc normalizeV cosSim envOpenai envUpstage
        true query data model_name top_k threshold preprocess_options =
      .noMatch ("유사도 임계치(" ++ toString threshold ++
        ")를 넘는 문장을 찾지 못했습니다. 임계치를 낮추거나 다른 모델을 사용해 보세요.")) := by
  intro kept
  rw [calculate_similarity_eq embedQuery embedDoc normalizeV cosSim envOpenai envUpstage
    query data model_name top_k threshold preprocess_options e hq hd hemb]
  constructor
  · intro h
    rw [if_neg h]
    rfl
  · intro h
    rw [if_pos h]

theorem C5_witness :
    calculate_similarity (fun _ => [1]) (fun _ => [1]) (fun v => v) (fun _ _ => 1)
      false false true "q" [⟨"cat", "text"⟩] w_model 5 0 [] =
    Outcome.success (rankRows (directReference (fun _ => [1]) (fun _ => [1])
      (fun v => v) (fun _ _ => 1) "q" [⟨"cat", "text"⟩] 5 0 [])) :=
  (C5_direct_mode_matches_reference (fun _ => [1]) (fun _ => [1]) (fun v => v)
    (fun _ _ => 1) false false "q" [⟨"cat", "text"⟩] w_model 5 0 [] Embedder.hf
    (by decide) (by decide) (by decide)).1 (by decide)

/-- C6: indexed mode converts and orders scores as specified — for a
non-empty query against a ready store, the code requests exactly `top_k`
nearest neighbours from the index, converts each returned native distance `d`
into the similarity `1 − d`, and returns the rows in the index's return order
(so ties keep their original order); when the index honours its contract of
returning distances in ascending order, the returned similarities are sorted
in descending order. -/
theorem C6_indexed_mode_conversion_and_order
    (searchFn : String → Nat → List (DocEntry × ℚ)) (query : String)
    (docs : List DocEntry) (top_k : Nat) (model_name : String)
    (preprocess_options : List String) (hq : query ≠ "")
    (hne : searchFn (preprocess_text query preprocess_options) top_k ≠ [])
    (hsorted : List.Chain' (fun a b : DocEntry × ℚ => a.2 ≤ b.2)
      (searchFn (preprocess_text query preprocess_options) top_k)) :
    search_from_vector_store searchFn query (some docs) top_k model_name
      preprocess_options =
      .success (rankRows ((searchFn (preprocess_text query preprocess_options) top_k).map
        (fun p => ResultRow.mk (1 - p.2) p.1.page_content (p.1.category.getD "N/A")))) ∧
    List.Chain' (fun a b : ResultRow => b.score ≤ a.score)
      ((searchFn (preprocess_text query preprocess_options) top_k).map
        (fun p => ResultRow.mk (1 - p.2) p.1.page_content (p.1.category.getD "N/A"))) := by
  constructor
  · simp only [search_from_vector_store, if_neg hq]
    rw [if_neg hne]
  · rw [List.chain'_map]
    exact List.Chain'.imp (fun a b h => by
      show (1 - b.2 : ℚ) ≤ 1 - a.2
      linarith) hsorted

theorem C6_witness :
    search_from_vector_store
      (fun _ _ => [(⟨"s1", some "c1"⟩, 0), (⟨"s2", none⟩, 1)]) "q" (some []) 5
      w_model [] =
      Outcome.success (rankRows
        (([(⟨"s1", some "c1"⟩, 0), (⟨"s2", none⟩, 1)] : List (DocEntry × ℚ)).map
          (fun p => ResultRow.mk (1 - p.2) p.1.page_content (p.1.category.getD "N/A")))) ∧
    List.Chain' (fun a b : ResultRow => b.score ≤ a.score)
      (([(⟨"s1", some "c1"⟩, 0), (⟨"s2", none⟩, 1)] : List (DocEntry × ℚ)).map
        (fun p => ResultRow.mk (1 - p.2) p.1.page_content (p.1.category.getD "N/A"))) :=
  C6_indexed_mode_conversion_and_order
    (fun _ _ => [(⟨"s1", some "c1"⟩, 0), (⟨"s2", none⟩, 1)]) "q" [] 5 w_model []
    (by decide) (by decide)
    (List.chain'_cons.mpr ⟨by decide, List.chain'_singleton _⟩)

theorem length_rankRows (rows : List ResultRow) : (rankRows rows).length = rows.length := by
  simp [rankRows]

theorem calc_rows_le (embedQuery embedDoc : String → List ℚ)
    (normalizeV : List ℚ → List ℚ) (cosSim : List ℚ → List ℚ → ℚ)
    (envOpenai envUpstage : Bool) (embedOk : Bool) (query : String)
    (data : List DataItem) (model_name : String) (top_k : Nat) (threshold : ℚ)
    (preprocess_options : List String) :
    (rowsOf (calculate_similarity embedQuery embedDoc normalizeV cosSim envOpenai
      envUpstage embedOk query data model_name top_k threshold
      preprocess_options)).length ≤ top_k := by
  simp only [calculate_similarity]
  split
  · simp [rowsOf]
  split
  · simp [rowsOf]
  split
  · simp [rowsOf]
  split
  · simp [rowsOf]
  split
  · simp [rowsOf]
  · simp only [rowsOf, length_rankRows]
    exact List.length_take_le _ _

theorem search_rows_le (searchFn : String → Nat → List (DocEntry × ℚ))
    (query : String) (vector_store : Option (List DocEntry)) (top_k : Nat)
    (model_name : String) (preprocess_options : List String)
    (hsearch : ∀ q k, (searchFn q k).length ≤ k) :
    (rowsOf (search_from_vector_store searchFn query vector_store top_k model_name
      preprocess_options)).length ≤ top_k := by
  simp only [search_from_vector_store]
  split
  · simp [rowsOf]
  split
  · simp [rowsOf]
  split
  · simp [rowsOf]
  · simp only [rowsOf, length_rankRows, List.length_map]
    exact hsearch _ _

/-- C7: top-K is a hard upper bound — for every `K ≥ 1`, every query and every
corpus, the router returns at most `K` result rows in either mode (given the
index's contract of returning at most `k` results for a request of `k`). -/
theorem C7_topk_upper_bound (embedQuery embedDoc : String → List ℚ)
    (normalizeV : List ℚ → List ℚ) (cosSim : List ℚ → List ℚ → ℚ)
    (searchFn : String → Nat → List (DocEntry × ℚ))
    (pdfExtract : String → Option String) (csvParse : String → Option (List DataItem))
    (splitText : Nat → Nat → String → List String) (envOpenai envUpstage : Bool)
    (embedOk : Bool) (backend query : String) (vector_store : Option (List DocEntry))
    (model_name : String) (top_k : Nat) (threshold : ℚ)
    (preprocess_options : List String) (source_type : String)
    (file_obj : Option FileObj) (use_chunking : Bool) (chunk_size chunk_overlap : Nat)
    (hk : 1 ≤ top_k) (hsearch : ∀ q k, (searchFn q k).length ≤ k) :
    ∀ o : Outcome, run_analysis_wrapper embedQuery embedDoc normalizeV cosSim searchFn
      pdfExtract csvParse splitText envOpenai envUpstage embedOk backend query
      vector_store model_name top_k threshold preprocess_options source_type file_obj
      use_chunking chunk_size chunk_overlap = some o → (rowsOf o).length ≤ top_k := by
  intro o h
  simp only [run_analysis_wrapper] at h
  split at h
  · split at h
    · obtain rfl := Option.some.inj h
      simp [rowsOf]
    · obtain rfl := Option.some.inj h
      exact calc_rows_le _ _ _ _ _ _ _ _ _ _ _ _ _
  · split at h
    · obtain rfl := Option.some.inj h
      exact search_rows_le _ _ _ _ _ _ hsearch
    · exact absurd h (by simp)

theorem C7_witness :
    (1 : Nat) ≤ 5 ∧
    (rowsOf (Outcome.noMatch "유사한 문장을 찾지 못했습니다.")).length ≤ 5 :=
  ⟨by decide,
    C7_topk_upper_bound (fun _ => [1]) (fun _ => [1]) (fun v => v) (fun _ _ => 1)
      (fun _ _ => []) w_pdf w_csv w_split false false true "ChromaDB Vector Store"
      "q" (some []) w_model 5 0 [] "내장 샘플" none true 500 50 (by decide)
      (fun _ k => Nat.zero_le k) (Outcome.noMatch "유사한 문장을 찾지 못했습니다.")
      (by decide)⟩

/-- C8: an empty result set is a valid, non-error outcome — in direct mode, a
non-empty query on a non-empty corpus with a loadable embedder whose every
document scores below the threshold yields the empty table with the
informational threshold message (the `noMatch` outcome, not a
`gr.Warning`/`gr.Error` branch); in indexed mode, a search that returns no
results (as Chroma does on an empty corpus) yields the empty table with its
informational message, likewise without an error. -/
theorem C8_empty_results_are_not_errors (embedQuery embedDoc : String → List ℚ)
    (normalizeV : List ℚ → List ℚ) (cosSim : List ℚ → List ℚ → ℚ)
    (searchFn : String → Nat → List (DocEntry × ℚ)) (envOpenai envUpstage : Bool)
    (query : String) (data : List DataItem) (docs : List DocEntry)
    (model_name : String) (top_k : Nat) (threshold : ℚ)
    (preprocess_options : List String) (e : Embedder) :
    (query ≠ "" → data ≠ [] →
      get_embedder envOpenai envUpstage model_name = some e →
      (∀ item ∈ data,
        cosSim (normalizeV (embedQuery (preprocess_text query preprocess_options)))
          (normalizeV (embedDoc (preprocess_text item.text preprocess_options))) <
          threshold) →
      calculate_similarity embedQuery embedDoc normalizeV cosSim envOpenai envUpstage
        true query data model_name top_k threshold preprocess_options =
      .noMatch ("유사도 임계치(" ++ toString threshold ++
        ")를 넘는 문장을 찾지 못했습니다. 임계치를 낮추거나 다른 모델을 사용해 보세요.")) ∧
    (query ≠ "" → searchFn (preprocess_text query preprocess_options) top_k = [] →
      search_from_vector_store searchFn query (some docs) top_k model_name
        preprocess_options = .noMatch "유사한 문장을 찾지 못했습니다.") := by
  constructor
  · intro hq hd hemb hall
    rw [calculate_similarity_eq embedQuery embedDoc normalizeV cosSim envOpenai
      envUpstage query data model_name top_k threshold preprocess_options e hq hd hemb]
    rw [if_pos]
    rw [List.filter_eq_nil_iff]
    intro r hr
    rcases List.mem_map.mp hr with ⟨item, hitem, rfl⟩
    simp only [decide_eq_true_eq]
    exact not_le.mpr (hall item hitem)
  · intro hq hempty
    simp only [search_from_vector_store, if_neg hq]
    rw [if_pos hempty]

theorem C8_witness :
    calculate_similarity (fun _ => [1]) (fun _ => [1]) (fun v => v) (fun _ _ => 0)
      false false true "q" [⟨"cat", "text"⟩] w_model 5 1 [] =
      Outcome.noMatch ("유사도 임계치(" ++ toString (1 : ℚ) ++
        ")를 넘는 문장을 찾지 못했습니다. 임계치를 낮추거나 다른 모델을 사용해 보세요.") ∧
    search_from_vector_store (fun _ _ => []) "q" (some []) 5 w_model [] =
      Outcome.noMatch "유사한 문장을 찾지 못했습니다." := by
  have h := C8_empty_results_are_not_errors (fun _ => [1]) (fun _ => [1]) (fun v => v)
    (fun _ _ => 0) (fun _ _ => []) false false "q" [⟨"cat", "text"⟩] []
    w_model 5 1 [] Embedder.hf
  exact ⟨h.1 (by decide) (by decide) (by decide) (by decide), h.2 (by decide) rfl⟩

/-! ### Session export (`gradio_text_splitter_v3.py`)

`save_session_json` writes `\x7b"input": …, "output": …\x7d` with `json.dump`
to a temp file; `load_session` reads a file back with `json.load`.  The file
is modelled by the JSON value it contains: `json.dump` followed by `json.load`
is the identity on the values representable below (null, bools, integers,
strings, arrays, string-keyed objects), which cover the session payloads (the
input text and the chunk list shown in the `gr.JSON` component). -/

/-- A JSON value. -/
inductive JVal where
  | null
  | bool (b : Bool)
  | num (n : Int)
  | str (s : String)
  | arr (l : List JVal)
  | obj (entries : List (String × JVal))

/-- Python truthiness of a JSON payload (`not x` is truthiness negation):
`None`, `False`, `0`, `""`, `[]` and `\x7b\x7d` are falsy. -/
def pyTruthy : JVal → Bool
  | .null => false
  | .bool b => b
  | .num n => n != 0
  | .str s => s != ""
  | .arr l => !l.isEmpty
  | .obj l => !l.isEmpty

/-- Function `save_session_json(input_text, output_text)`: `None` when both are falsy
(`if not input_text and not output_text: return None`), otherwise the written
session file. -/
def save_session_json (input_text : String) (output_text : JVal) : Option JVal :=
  if !pyTruthy (.str input_text) && !pyTruthy output_text then none
  else some (.obj [("input", .str input_text), ("output", output_text)])

/-- Model of `dict.get(k, default)` on a parsed JSON object. -/
def dictGet (kvs : List (String × JVal)) (k : String) (default : JVal) : JVal :=
  match kvs.find? (fun e => e.1 == k) with
  | some e => e.2
  | none => default

/-- Function `load_session(file)`: `("", None)` without a file, otherwise
`(session_data.get("input", ""), session_data.get("output", None))`.  A file
whose top-level value is not an object would crash `.get` with an
`AttributeError`; that unreachable-for-saved-files case is mapped to the
defaults. -/
def load_session (file : Option JVal) : JVal × JVal :=
  match file with
  | none => (.str "", .null)
  | some v =>
    match v with
    | .obj kvs => (dictGet kvs "input" (.str ""), dictGet kvs "output" .null)
    | _ => (.str "", .null)

/-- C9: session export round-trips — whenever the input text or the output
chunks are non-empty (Python-truthy, exactly the condition under which
`save_session_json` writes a file at all), saving the session and loading the
written file restores exactly the saved input text and output chunks. -/
theorem C9_session_export_round_trips (input_text : String) (output_text : JVal)
    (h : pyTruthy (.str input_text) = true ∨ pyTruthy output_text = true) :
    save_session_json input_text output_text =
      some (.obj [("input", .str input_text), ("output", output_text)]) ∧
    load_session (save_session_json input_text output_text) =
      (.str input_text, output_text) := by
  have hcond : (!pyTruthy (JVal.str input_text) && !pyTruthy output_text) = false := by
    rcases h with h | h <;> simp [h]
  have hsave : save_session_json input_text output_text =
      some (.obj [("input", .str input_text), ("output", output_text)]) := by
    simp [save_session_json, hcond]
  refine ⟨hsave, ?_⟩
  rw [hsave]
  rfl

theorem C9_witness :
    save_session_json "some input" (.arr [.str "chunk one", .str "chunk two"]) =
      some (.obj [("input", .str "some input"),
        ("output", .arr [.str "chunk one", .str "chunk two"])]) ∧
    load_session (save_session_json "some input"
        (.arr [.str "chunk one", .str "chunk two"])) =
      (.str "some input", .arr [.str "chunk one", .str "chunk two"]) :=
  C9_session_export_round_trips "some input"
    (.arr [.str "chunk one", .str "chunk two"]) (Or.inl (by decide))

end LangchainKR
